import Mathlib

/-!
Verification of the meal-ordering core (order admission, balance ledger,
meal lifecycle, consistency auditor) of the ganghaofan backend.

The definitions below are a shallow embedding of the Python source:
* `submitOrder`, `updateOrder`, `cancelOrder` embed
  `server/services/order_service.py` (`OrderService.create_order`,
  `update_order`, `cancel_order`, `_cancel_order_internal`);
* `rechargeUser` embeds the recharge endpoint of `server/routers/users.py`;
* `lockMeal`, `unlockMeal`, `completeMeal`, `cancelMeal`, `repostMeal`,
  `createMeal`, `updateMealPatch` embed `server/routers/meals.py`;
* `validateStatusTransition` embeds
  `server/services/meal_service.py._validate_status_transition`;
* `rawLedgerSum` / `balanceMismatchUsers` embed
  `server/services/consistency_service.py._check_user_balance_consistency`.

Database rows are lists; a transaction that commits becomes a pure state
update, a transaction that rolls back leaves the state argument unchanged.
-/

namespace GangHaoFan

/-- Meal lifecycle states (`meals.status`). -/
inductive MealStatus
  | published
  | locked
  | completed
  | canceled
deriving DecidableEq, Repr

/-- Meal slot (`meals.slot`), validated to `lunch`/`dinner` by the router. -/
inductive Slot
  | lunch
  | dinner
deriving DecidableEq, Repr

/-- One entry of a meal's `options_json` list: `{id, name, price_cents}`. -/
structure MealOption where
  id : String
  name : String
  priceCents : Int
deriving DecidableEq, Repr

/-- A row of the `meals` table (the columns the core reads). -/
structure Meal where
  mealId : Nat
  date : Nat
  slot : Slot
  basePriceCents : Int
  options : List MealOption
  capacity : Int
  perUserLimit : Int
  status : MealStatus
deriving DecidableEq, Repr

/-- Order states (`orders.status`). -/
inductive OrderStatus
  | active
  | canceled
deriving DecidableEq, Repr

/-- A row of the `orders` table. `lockedAt` models presence of the
`locked_at` timestamp stamped by `lock_meal` and cleared by `unlock_meal`. -/
structure Order where
  orderId : Nat
  userId : Nat
  mealId : Nat
  qty : Int
  selectedOptions : List String
  amountCents : Int
  status : OrderStatus
  lockedAt : Bool
deriving DecidableEq, Repr

/-- Ledger entry types used by the core write paths. -/
inductive LedgerType
  | recharge
  | debit
  | refund
deriving DecidableEq, Repr

/-- A row of the append-only `ledger` table. Every writer stores
`amount_cents` as a magnitude; the type says which way the balance moved. -/
structure LedgerEntry where
  userId : Nat
  type : LedgerType
  amountCents : Int
  refOrderId : Option Nat
deriving DecidableEq, Repr

/-- A row of the `users` table (`balance_cents` defaults to 0). -/
structure User where
  userId : Nat
  balanceCents : Int
deriving DecidableEq, Repr

/-- The entity store: the four tables plus the id sequences. -/
structure DB where
  users : List User
  meals : List Meal
  orders : List Order
  ledger : List LedgerEntry
  nextOrderId : Nat
  nextMealId : Nat
deriving DecidableEq, Repr

/-- Typed errors raised by the embedded operations. -/
inductive OpError
  | invalidQuantity
  | mealNotFound
  | mealNotAvailable
  | duplicateOrder
  | capacityExceeded
  | orderNotFound
  | orderNotActive
  | mealLocked
  | mealExists
  | mealStateInvalid
  | amountNotPositive
deriving DecidableEq, Repr

/-! ## Read helpers (the `SELECT`s of the source) -/

/-- `SELECT ... FROM users WHERE id=?` (first matching row). -/
def findUserIn (users : List User) (uid : Nat) : Option User :=
  users.find? (fun u => u.userId == uid)

def findUser (s : DB) (uid : Nat) : Option User :=
  findUserIn s.users uid

/-- Cached balance of a user, `none` when the row is absent. -/
def balOf (users : List User) (uid : Nat) : Option Int :=
  (findUserIn users uid).map User.balanceCents

/-- `_get_user_balance`: reads `balance_cents`, 0 when the row is absent. -/
def getUserBalance (s : DB) (uid : Nat) : Int :=
  (balOf s.users uid).getD 0

/-- `SELECT ... FROM meals WHERE meal_id=?`. -/
def findMeal (s : DB) (mid : Nat) : Option Meal :=
  s.meals.find? (fun m => m.mealId == mid)

/-- `_get_meal_status` (up to the missing-row encoding). -/
def mealStatusOf (s : DB) (mid : Nat) : Option MealStatus :=
  (findMeal s mid).map Meal.status

/-- `_has_active_order`: `SELECT 1 FROM orders WHERE user_id=? AND meal_id=?
AND status='active'`. -/
def hasActiveOrder (s : DB) (uid mid : Nat) : Bool :=
  s.orders.any (fun o => o.userId == uid && o.mealId == mid && o.status == .active)

/-- Active orders of a meal, in table order. -/
def activeOrdersIn (orders : List Order) (mid : Nat) : List Order :=
  orders.filter (fun o => o.mealId == mid && o.status == .active)

/-- `SELECT COALESCE(SUM(qty),0) FROM orders WHERE meal_id=? AND
status='active'` over a given order list. -/
def qtySumIn (orders : List Order) (mid : Nat) : Int :=
  ((activeOrdersIn orders mid).map Order.qty).sum

/-- The sum used by `_check_capacity_exceeded`. -/
def activeQtySum (s : DB) (mid : Nat) : Int :=
  qtySumIn s.orders mid

/-- `SELECT ... FROM orders WHERE order_id=? AND status='active'`. -/
def findActiveOrder (s : DB) (oid : Nat) : Option Order :=
  s.orders.find? (fun o => o.orderId == oid && o.status == .active)

/-! ## Amount computation (`_calculate_order_amount`) -/

/-- The `opt_by_id` dict: options with a truthy (non-empty) id, keyed by id,
later entries overwriting earlier ones; lookup of one selected id. -/
def optionLookup (opts : List MealOption) (sid : String) : Option MealOption :=
  ((opts.filter (fun o => o.id != "")).reverse).find? (fun o => o.id == sid)

/-- The `options_total` accumulator: each selected id that resolves in
`opt_by_id` contributes its `price_cents`, unresolved ids contribute 0. -/
def optionsTotal (opts : List MealOption) (sel : List String) : Int :=
  (sel.map (fun sid =>
    match optionLookup opts sid with
    | some o => o.priceCents
    | none => 0)).sum

/-- `amount_cents = base_price * qty + options_total`. -/
def calcOrderAmount (meal : Meal) (qty : Int) (sel : List String) : Int :=
  meal.basePriceCents * qty + optionsTotal meal.options sel

/-- The spec's wording of the option part of the price formula ("sum of the
price deltas of the selected options as resolved against the meal's option
list"): each selected id contributes the price delta of the option with that
id in the meal's option list, or 0 when it resolves to nothing.  Compared
against the implementation's `optionsTotal` in the C8 theorem. -/
def specOptionsTotal (opts : List MealOption) (sel : List String) : Int :=
  (sel.map (fun sid =>
    ((opts.find? (fun o => o.id == sid)).map MealOption.priceCents).getD 0)).sum

/-! ## Write helpers -/

/-- `UPDATE users SET balance_cents = balance_cents + ? WHERE id=?`. -/
def creditUser (users : List User) (uid : Nat) (amt : Int) : List User :=
  users.map (fun u =>
    if u.userId == uid then { u with balanceCents := u.balanceCents + amt } else u)

/-- `UPDATE orders SET status='canceled' WHERE order_id=?`. -/
def markOrderCanceled (orders : List Order) (oid : Nat) : List Order :=
  orders.map (fun o =>
    if o.orderId == oid then { o with status := .canceled } else o)

/-- `UPDATE meals SET status=? WHERE meal_id=?`. -/
def setMealStatus (meals : List Meal) (mid : Nat) (st : MealStatus) : List Meal :=
  meals.map (fun m => if m.mealId == mid then { m with status := st } else m)

/-- Stamp / clear `locked_at` on the active orders of a meal. -/
def setOrdersLock (orders : List Order) (mid : Nat) (b : Bool) : List Order :=
  orders.map (fun o =>
    if o.mealId == mid && o.status == .active then { o with lockedAt := b } else o)

/-- The refund ledger row written for one canceled order. -/
def refundEntry (o : Order) : LedgerEntry :=
  { userId := o.userId, type := .refund, amountCents := o.amountCents,
    refOrderId := some o.orderId }

/-- The committed body shared by every cancel-refund transaction: mark the
order canceled, append a `refund` ledger row, credit the owner's balance. -/
def refundOrder (s : DB) (oid uid : Nat) (amt : Int) : DB :=
  { s with
    orders := markOrderCanceled s.orders oid,
    ledger := s.ledger ++ [{ userId := uid, type := .refund, amountCents := amt,
                             refOrderId := some oid }],
    users := creditUser s.users uid amt }

/-- `_get_or_create_user`: insert a row with the default balance 0 when the
open_id is unknown. -/
def getOrCreateUser (s : DB) (uid : Nat) : DB :=
  if (findUser s uid).isSome then s
  else { s with users := s.users ++ [{ userId := uid, balanceCents := 0 }] }

/-! ## Order admission controller (`OrderService`) -/

structure CreateOrderResult where
  orderId : Nat
  amountCents : Int
  balanceCents : Int
deriving DecidableEq, Repr

structure CancelOrderResult where
  orderId : Nat
  balanceCents : Int
deriving DecidableEq, Repr

/-- The order row inserted by `_execute_create_order_transaction`. -/
def newOrderRow (s1 : DB) (uid mid : Nat) (qty : Int) (sel : List String)
    (amount : Int) : Order :=
  { orderId := s1.nextOrderId, userId := uid, mealId := mid, qty := qty,
    selectedOptions := sel, amountCents := amount, status := .active,
    lockedAt := false }

/-- The committed body of `_execute_create_order_transaction`: insert the
active order, append the `debit` ledger row (positive magnitude) and
decrement the balance by the amount. -/
def admitTransaction (s1 : DB) (uid mid : Nat) (qty : Int) (sel : List String)
    (amount : Int) : DB :=
  { s1 with
    orders := s1.orders ++ [newOrderRow s1 uid mid qty sel amount],
    ledger := s1.ledger ++
      [{ userId := uid, type := .debit, amountCents := amount,
         refOrderId := some s1.nextOrderId }],
    users := creditUser s1.users uid (-amount),
    nextOrderId := s1.nextOrderId + 1 }

/-- `OrderService.create_order`.  Checks run in source order: quantity,
meal existence, meal status, duplicate order, capacity; then one committed
transaction inserts the active order, appends the `debit` ledger row (with a
positive magnitude) and decrements the balance. -/
def submitOrder (s : DB) (uid mid : Nat) (qty : Int) (sel : List String) :
    DB × Except OpError CreateOrderResult :=
  if qty ≠ 1 then (s, .error .invalidQuantity)
  else
    let s1 := getOrCreateUser s uid
    match findMeal s1 mid with
    | none => (s1, .error .mealNotFound)
    | some meal =>
      if meal.status ≠ .published then (s1, .error .mealNotAvailable)
      else if hasActiveOrder s1 uid mid then (s1, .error .duplicateOrder)
      else if activeQtySum s1 mid + qty > meal.capacity then (s1, .error .capacityExceeded)
      else
        let amount := calcOrderAmount meal qty sel
        let s2 := admitTransaction s1 uid mid qty sel amount
        (s2, .ok { orderId := s1.nextOrderId, amountCents := amount,
                   balanceCents := getUserBalance s2 uid })

/-- `OrderService.cancel_order`: only active rows are selected, so a missing
or already-canceled order id raises `ORDER_NOT_FOUND`; a meal not in
`published` raises `MEAL_LOCKED`; else one committed refund transaction. -/
def cancelOrder (s : DB) (oid : Nat) : DB × Except OpError CancelOrderResult :=
  match findActiveOrder s oid with
  | none => (s, .error .orderNotFound)
  | some o =>
    if mealStatusOf s o.mealId ≠ some .published then (s, .error .mealLocked)
    else
      let s2 := refundOrder s oid o.userId o.amountCents
      (s2, .ok { orderId := oid, balanceCents := getUserBalance s2 o.userId })

/-- `OrderService._cancel_order_internal`: the first, separately committed
half of `update_order`. -/
def cancelOrderInternal (s : DB) (oid : Nat) : DB × Except OpError Unit :=
  match findActiveOrder s oid with
  | none => (s, .error .orderNotActive)
  | some o => (refundOrder s oid o.userId o.amountCents, .ok ())

/-- `OrderService.update_order`: validate, then cancel-and-refund the old
order (commits on its own), then call `create_order` afresh.  There is no
transaction spanning the two halves. -/
def updateOrder (s : DB) (uid oid : Nat) (qty : Int) (sel : List String) :
    DB × Except OpError CreateOrderResult :=
  match s.orders.find? (fun o => o.orderId == oid) with
  | none => (s, .error .orderNotFound)
  | some o =>
    if mealStatusOf s o.mealId ≠ some .published then (s, .error .mealLocked)
    else
      match cancelOrderInternal s oid with
      | (s1, .error e) => (s1, .error e)
      | (s1, .ok _) => submitOrder s1 uid o.mealId qty sel

/-! ## Balance ledger: recharge (`routers/users.py`) -/

/-- The recharge endpoint: reject non-positive amounts, else credit the
balance and append a `recharge` ledger row in one transaction. -/
def rechargeUser (s : DB) (uid : Nat) (amt : Int) : DB × Except OpError Unit :=
  if amt ≤ 0 then (s, .error .amountNotPositive)
  else
    ({ s with
       users := creditUser s.users uid amt,
       ledger := s.ledger ++
         [{ userId := uid, type := .recharge, amountCents := amt, refOrderId := none }] },
     .ok ())

/-! ## Meal lifecycle manager (`routers/meals.py`, `services/meal_service.py`) -/

/-- The request body of meal creation / edit / repost (the fields the core
stores; `title`/`description` are free text and are not modeled). -/
structure MealReq where
  date : Nat
  slot : Slot
  basePriceCents : Int
  options : List MealOption
  capacity : Int
  perUserLimit : Int
deriving DecidableEq, Repr

/-- The column list written by the meal `UPDATE` statements (status, date and
slot are handled separately by each endpoint). -/
def updateMealFields (m : Meal) (req : MealReq) : Meal :=
  { m with
    basePriceCents := req.basePriceCents,
    options := req.options,
    capacity := req.capacity,
    perUserLimit := req.perUserLimit }

/-- `lock_meal`: valid only from `published`; stamps `locked_at` on the active
orders and moves the meal to `locked`; otherwise rolls back with an error. -/
def lockMeal (s : DB) (mid : Nat) : DB × Except OpError MealStatus :=
  if mealStatusOf s mid = some .published then
    ({ s with
       meals := setMealStatus s.meals mid .locked,
       orders := setOrdersLock s.orders mid true }, .ok .locked)
  else (s, .error .mealStateInvalid)

/-- `unlock_meal`: valid only from `locked`; clears `locked_at` on the active
orders and returns the meal to `published`. -/
def unlockMeal (s : DB) (mid : Nat) : DB × Except OpError MealStatus :=
  if mealStatusOf s mid = some .locked then
    ({ s with
       meals := setMealStatus s.meals mid .published,
       orders := setOrdersLock s.orders mid false }, .ok .published)
  else (s, .error .mealStateInvalid)

/-- `complete_meal`: a bare `UPDATE meals SET status='completed' WHERE
meal_id=? AND status='locked'` followed by an unconditional 200 response —
when the meal is not `locked` nothing changes but no error is raised. -/
def completeMeal (s : DB) (mid : Nat) : DB × Except OpError MealStatus :=
  ({ s with
     meals := s.meals.map (fun m =>
       if m.mealId == mid && m.status == .locked then { m with status := .completed } else m) },
   .ok .completed)

/-- The cascading refund loop shared by `cancel_meal` and `repost_meal`:
for each collected active order, mark it canceled, append one `refund`
ledger row and credit the owner by the order's amount. -/
def refundCascade (toCancel : List Order) (s : DB) : DB :=
  match toCancel with
  | [] => s
  | o :: rest => refundCascade rest (refundOrder s o.orderId o.userId o.amountCents)

/-- `cancel_meal`: valid from `published` or `locked`; in one transaction set
the meal `canceled`, then cancel-and-refund every active order of the meal. -/
def cancelMeal (s : DB) (mid : Nat) : DB × Except OpError MealStatus :=
  if mealStatusOf s mid = some .published ∨ mealStatusOf s mid = some .locked then
    let s1 : DB := { s with meals := setMealStatus s.meals mid .canceled }
    (refundCascade (activeOrdersIn s1.orders mid) s1, .ok .canceled)
  else (s, .error .mealStateInvalid)

/-- `repost_meal`: valid only from `published`; overwrite the meal's terms,
then cancel-and-refund every existing active order, leaving it `published`. -/
def repostMeal (s : DB) (mid : Nat) (req : MealReq) : DB × Except OpError MealStatus :=
  if mealStatusOf s mid = some .published then
    let s1 : DB := { s with
      meals := s.meals.map (fun m =>
        if m.mealId == mid && m.status == .published then updateMealFields m req else m) }
    (refundCascade (activeOrdersIn s1.orders mid) s1, .ok .published)
  else (s, .error .mealStateInvalid)

/-- `create_meal`: one meal per (date, slot).  An existing `canceled` meal is
overwritten in place and republished; any other existing status is a 409;
otherwise insert a fresh `published` meal. -/
def createMeal (s : DB) (req : MealReq) : DB × Except OpError Nat :=
  match s.meals.find? (fun m => m.date == req.date && m.slot == req.slot) with
  | some existing =>
    if existing.status = .canceled then
      ({ s with
         meals := s.meals.map (fun m =>
           if m.mealId == existing.mealId then
             { updateMealFields m req with status := .published } else m) },
       .ok existing.mealId)
    else (s, .error .mealExists)
  | none =>
    ({ s with
       meals := s.meals ++
         [{ mealId := s.nextMealId, date := req.date, slot := req.slot,
            basePriceCents := req.basePriceCents, options := req.options,
            capacity := req.capacity, perUserLimit := req.perUserLimit,
            status := .published }],
       nextMealId := s.nextMealId + 1 },
     .ok s.nextMealId)

/-- `update_meal_patch` (PATCH /meals/{id}): a bare `UPDATE ... WHERE
meal_id=? AND status='published'` with an unconditional 200 response.  No
check relates the new capacity to the quantity already ordered. -/
def updateMealPatch (s : DB) (mid : Nat) (req : MealReq) : DB × Except OpError Nat :=
  ({ s with
     meals := s.meals.map (fun m =>
       if m.mealId == mid && m.status == .published then updateMealFields m req else m) },
   .ok mid)

/-- `MealService._validate_status_transition`'s transition table. -/
def validTransitions (st : MealStatus) : List MealStatus :=
  match st with
  | .published => [.locked, .canceled]
  | .locked => [.completed, .canceled]
  | .completed => []
  | .canceled => []

/-- `_validate_status_transition` succeeds iff the target is in the table. -/
def validateStatusTransition (cur next : MealStatus) : Bool :=
  (validTransitions cur).contains next

/-! ## Consistency auditor (`consistency_service.py`) -/

/-- The per-user sum computed by `_check_user_balance_consistency`:
`COALESCE(SUM(l.amount_cents), 0)` — the raw stored amounts, with no sign
adjustment by entry type. -/
def rawLedgerSum (s : DB) (uid : Nat) : Int :=
  ((s.ledger.filter (fun e => e.userId == uid)).map LedgerEntry.amountCents).sum

/-- The signed contribution of one ledger entry per the spec's sign
convention: `debit` counts negatively, `recharge`/`refund` positively. -/
def signedAmount (e : LedgerEntry) : Int :=
  match e.type with
  | .debit => -e.amountCents
  | _ => e.amountCents

/-- The signed sum of a user's ledger entries (the quantity the spec says
the cached balance must equal). -/
def signedLedgerSum (s : DB) (uid : Nat) : Int :=
  ((s.ledger.filter (fun e => e.userId == uid)).map signedAmount).sum

/-- The users flagged with a `balance_mismatch` issue by
`_check_user_balance_consistency`: cached balance ≠ raw ledger sum. -/
def balanceMismatchUsers (s : DB) : List User :=
  s.users.filter (fun u => u.balanceCents != rawLedgerSum s u.userId)

/-! ## Derived notions used in statements -/

/-- Total refund received by user `v` from a list of cascaded orders. -/
def refundTotal (v : Nat) (L : List Order) : Int :=
  ((L.filter (fun o => o.userId == v)).map Order.amountCents).sum

/-- Mark every order whose id occurs in `ids` as canceled (the composite
effect of the cascading per-order `UPDATE`s). -/
def markManyCanceled (ids : List Nat) (orders : List Order) : List Order :=
  orders.map (fun o =>
    if ids.contains o.orderId then { o with status := .canceled } else o)

/-- Spec invariant 1: the active quantity sum of every meal row is within
its capacity. -/
def capacityInvariant (s : DB) : Prop :=
  ∀ m ∈ s.meals, activeQtySum s m.mealId ≤ m.capacity

/-- Well-formedness: order quantities are nonnegative (all admitted orders
have quantity 1; the `qty` column is a count). -/
def qtysNonneg (s : DB) : Prop :=
  ∀ o ∈ s.orders, 0 ≤ o.qty

/-- Well-formedness: `meal_id` is the primary key of `meals`. -/
def mealIdsNodup (s : DB) : Prop :=
  (s.meals.map Meal.mealId).Nodup

/-- Reachable-state fact used for republishing: a meal in the `canceled`
state has no active orders (the cascade canceled them all). -/
def canceledMealsHaveNoActive (s : DB) : Prop :=
  ∀ m ∈ s.meals, m.status = .canceled → activeQtySum s m.mealId = 0

/-- Spec invariant 2: no two distinct active orders share (user, meal). -/
def atMostOneActive (s : DB) : Prop :=
  (s.orders.filter (fun o => o.status == .active)).Pairwise
    (fun o1 o2 => ¬(o1.userId = o2.userId ∧ o1.mealId = o2.mealId))

/-- Every order row ever admitted has quantity exactly 1. -/
def allOrderQtyOne (s : DB) : Prop :=
  ∀ o ∈ s.orders, o.qty = 1

/-- Well-formedness: the `order_id` sequence is ahead of every stored id. -/
def orderIdsBounded (s : DB) : Prop :=
  ∀ o ∈ s.orders, o.orderId < s.nextOrderId

/-- Well-formedness: the `meal_id` sequence is ahead of every stored id. -/
def mealIdsBounded (s : DB) : Prop :=
  ∀ m ∈ s.meals, m.mealId < s.nextMealId

/-- Equality of `Except` results is decidable (used to evaluate the
operations on concrete states). -/
instance {ε α : Type} [DecidableEq ε] [DecidableEq α] : DecidableEq (Except ε α) := fun a b =>
  match a, b with
  | .ok x, .ok y =>
    if h : x = y then .isTrue (by rw [h]) else .isFalse (by intro hc; cases hc; exact h rfl)
  | .error x, .error y =>
    if h : x = y then .isTrue (by rw [h]) else .isFalse (by intro hc; cases hc; exact h rfl)
  | .ok _, .error _ => .isFalse (by intro hc; cases hc)
  | .error _, .ok _ => .isFalse (by intro hc; cases hc)

/-! ## Concrete example states (used by counterexamples and witnesses) -/

/-- A published meal: base price 2000, no options, capacity 10. -/
def exMealPub : Meal :=
  { mealId := 1, date := 20250101, slot := .lunch, basePriceCents := 2000,
    options := [], capacity := 10, perUserLimit := 1, status := .published }

/-- One user with balance 0, one published meal, nothing else. -/
def exState0 : DB :=
  { users := [{ userId := 1, balanceCents := 0 }], meals := [exMealPub],
    orders := [], ledger := [], nextOrderId := 0, nextMealId := 2 }

/-- `exState0` after user 1 successfully orders meal 1 (order 0, 2000 cents
debited). -/
def exStateOrdered : DB := (submitOrder exState0 1 1 1 []).1

/-- A state whose only order (id 0, amount 2000) is already canceled. -/
def exStateCanceledOrder : DB :=
  { users := [{ userId := 1, balanceCents := 0 }], meals := [exMealPub],
    orders := [{ orderId := 0, userId := 1, mealId := 1, qty := 1,
                 selectedOptions := [], amountCents := 2000,
                 status := .canceled, lockedAt := false }],
    ledger := [], nextOrderId := 1, nextMealId := 2 }

/-- A state whose only meal (same date and slot as `exMealPub`) is in the
terminal `canceled` state. -/
def exStateCanceledMeal : DB :=
  { users := [], meals := [{ exMealPub with status := .canceled }],
    orders := [], ledger := [], nextOrderId := 0, nextMealId := 2 }

/-- A state whose only meal is in the terminal `completed` state. -/
def exStateCompletedMeal : DB :=
  { users := [], meals := [{ exMealPub with status := .completed }],
    orders := [], ledger := [], nextOrderId := 0, nextMealId := 2 }

/-- A meal-request body reusing `exMealPub`'s date and slot with new terms. -/
def exRepostReq : MealReq :=
  { date := 20250101, slot := .lunch, basePriceCents := 3000,
    options := [], capacity := 5, perUserLimit := 1 }

/-- A meal-request body that shrinks the capacity to 1. -/
def exShrinkReq : MealReq :=
  { date := 20250101, slot := .lunch, basePriceCents := 2000,
    options := [], capacity := 1, perUserLimit := 1 }

/-- Meal 1 published with capacity 2, exactly filled by two active orders;
user 3 has not ordered. -/
def exStateTwoOrders : DB :=
  { users := [{ userId := 1, balanceCents := 0 }, { userId := 2, balanceCents := 0 },
              { userId := 3, balanceCents := 500 }],
    meals := [{ exMealPub with capacity := 2 }],
    orders := [{ orderId := 0, userId := 1, mealId := 1, qty := 1, selectedOptions := [],
                 amountCents := 2000, status := .active, lockedAt := false },
               { orderId := 1, userId := 2, mealId := 1, qty := 1, selectedOptions := [],
                 amountCents := 2000, status := .active, lockedAt := false }],
    ledger := [{ userId := 1, type := .debit, amountCents := 2000, refOrderId := some 0 },
               { userId := 2, type := .debit, amountCents := 2000, refOrderId := some 1 }],
    nextOrderId := 2, nextMealId := 2 }

/-- A published meal with two priced options (deltas +300 and +500). -/
def exMealOpts : Meal :=
  { mealId := 1, date := 20250101, slot := .lunch, basePriceCents := 2000,
    options := [{ id := "egg", name := "egg", priceCents := 300 },
                { id := "leg", name := "leg", priceCents := 500 }],
    capacity := 10, perUserLimit := 1, status := .published }

/-- One user with balance 0 facing the optioned meal. -/
def exStateOpt : DB :=
  { users := [{ userId := 1, balanceCents := 0 }], meals := [exMealOpts],
    orders := [], ledger := [], nextOrderId := 0, nextMealId := 2 }

/-- Scenario C of the spec: a published meal with three active orders of
amounts 1000, 1500 and 2000 held by three different users. -/
def exStateThreeOrders : DB :=
  { users := [{ userId := 1, balanceCents := 0 }, { userId := 2, balanceCents := 0 },
              { userId := 3, balanceCents := 0 }],
    meals := [exMealPub],
    orders := [{ orderId := 0, userId := 1, mealId := 1, qty := 1, selectedOptions := [],
                 amountCents := 1000, status := .active, lockedAt := false },
               { orderId := 1, userId := 2, mealId := 1, qty := 1, selectedOptions := [],
                 amountCents := 1500, status := .active, lockedAt := false },
               { orderId := 2, userId := 3, mealId := 1, qty := 1, selectedOptions := [],
                 amountCents := 2000, status := .active, lockedAt := false }],
    ledger := [], nextOrderId := 3, nextMealId := 2 }

end GangHaoFan

namespace GangHaoFan

/-! # Theorems -/

/-! ## Helper lemmas about the write primitives -/

theorem getOrCreateUser_of_isSome {s : DB} {uid : Nat} (h : (findUser s uid).isSome) :
    getOrCreateUser s uid = s := by
  unfold getOrCreateUser
  simp [h]

theorem balOf_creditUser (us : List User) (uid v : Nat) (amt : Int) :
    balOf (creditUser us uid amt) v =
      (balOf us v).map (fun b => b + if v = uid then amt else 0) := by
  unfold balOf findUserIn creditUser
  rw [List.find?_map]
  have hp : ((fun u : User => u.userId == v) ∘ (fun u : User =>
      if u.userId == uid then { u with balanceCents := u.balanceCents + amt } else u)) =
      fun u : User => u.userId == v := by
    funext u
    by_cases h : u.userId = uid <;> simp [h]
  rw [hp]
  cases hf : us.find? (fun u => u.userId == v) with
  | none => simp
  | some u =>
    have hv : u.userId = v := by simpa using List.find?_some hf
    by_cases h2 : v = uid
    · simp [hv, h2]
    · simp [hv, h2]

theorem qtySumIn_append (l1 l2 : List Order) (mid : Nat) :
    qtySumIn (l1 ++ l2) mid = qtySumIn l1 mid + qtySumIn l2 mid := by
  unfold qtySumIn activeOrdersIn
  rw [List.filter_append, List.map_append, List.sum_append]

theorem qtySumIn_map_preserving (f : Order → Order)
    (hf : ∀ o, (f o).mealId = o.mealId ∧ (f o).status = o.status ∧ (f o).qty = o.qty)
    (l : List Order) (mid : Nat) :
    qtySumIn (l.map f) mid = qtySumIn l mid := by
  induction l with
  | nil => rfl
  | cons o t ih =>
    have h1 := (hf o).1
    have h2 := (hf o).2.1
    have h3 := (hf o).2.2
    unfold qtySumIn activeOrdersIn at *
    rw [List.map_cons, List.filter_cons, List.filter_cons, h1, h2]
    by_cases hc : (o.mealId == mid && o.status == OrderStatus.active) = true
    · rw [if_pos hc, if_pos hc, List.map_cons, List.map_cons, List.sum_cons, List.sum_cons,
        h3, ih]
    · rw [if_neg hc, if_neg hc, ih]

theorem markManyCanceled_nil (orders : List Order) :
    markManyCanceled [] orders = orders := by
  unfold markManyCanceled
  simp

theorem markManyCanceled_cons (a : Nat) (ids : List Nat) (orders : List Order) :
    markManyCanceled (a :: ids) orders =
      markManyCanceled ids (markOrderCanceled orders a) := by
  unfold markManyCanceled markOrderCanceled
  rw [List.map_map]
  congr 1
  funext o
  by_cases h : o.orderId = a
  · by_cases h2 : ids.contains o.orderId = true <;>
      simp [h, h2, List.contains_cons]
  · by_cases h2 : ids.contains o.orderId = true <;>
      simp [h, h2, List.contains_cons]

theorem markManyCanceled_preserving (ids : List Nat) :
    ∀ o, ((fun o : Order =>
        if ids.contains o.orderId then { o with status := OrderStatus.canceled } else o) o).mealId
          = o.mealId ∧
      ((fun o : Order =>
        if ids.contains o.orderId then { o with status := OrderStatus.canceled } else o) o).qty
          = o.qty ∧
      ((fun o : Order =>
        if ids.contains o.orderId then { o with status := OrderStatus.canceled } else o) o).userId
          = o.userId ∧
      ((fun o : Order =>
        if ids.contains o.orderId then { o with status := OrderStatus.canceled } else o) o).orderId
          = o.orderId := by
  intro o
  dsimp only
  by_cases h : ids.contains o.orderId = true
  · rw [if_pos h]
    exact ⟨rfl, rfl, rfl, rfl⟩
  · rw [if_neg h]
    exact ⟨rfl, rfl, rfl, rfl⟩

theorem qtySumIn_markManyCanceled_le (ids : List Nat) (l : List Order) (mid : Nat)
    (hq : ∀ o ∈ l, 0 ≤ o.qty) :
    qtySumIn (markManyCanceled ids l) mid ≤ qtySumIn l mid := by
  induction l with
  | nil => exact le_refl _
  | cons o t ih =>
    have ht : ∀ o ∈ t, 0 ≤ o.qty := fun x hx => hq x (List.mem_cons_of_mem _ hx)
    have iht := ih ht
    unfold markManyCanceled at *
    unfold qtySumIn activeOrdersIn at *
    rw [List.map_cons, List.filter_cons, List.filter_cons]
    by_cases hc : ids.contains o.orderId = true
    · rw [if_pos hc]
      have : ((OrderStatus.canceled == OrderStatus.active) = false) := by decide
      simp only [this, Bool.and_false, Bool.false_eq_true, if_false]
      by_cases hm : (o.mealId == mid && o.status == OrderStatus.active) = true
      · rw [if_pos hm, List.map_cons, List.sum_cons]
        have hoq : 0 ≤ o.qty := hq o (List.mem_cons_self _ _)
        omega
      · rw [if_neg hm]
        exact iht
    · rw [if_neg hc]
      by_cases hm : (o.mealId == mid && o.status == OrderStatus.active) = true
      · rw [if_pos hm, if_pos hm, List.map_cons, List.map_cons, List.sum_cons, List.sum_cons]
        omega
      · rw [if_neg hm, if_neg hm]
        exact iht

theorem qtySumIn_markAll_zero (l : List Order) (mid : Nat) :
    qtySumIn (markManyCanceled ((activeOrdersIn l mid).map Order.orderId) l) mid = 0 := by
  unfold qtySumIn
  have hnil : activeOrdersIn (markManyCanceled ((activeOrdersIn l mid).map Order.orderId) l) mid
      = [] := by
    unfold markManyCanceled activeOrdersIn
    rw [List.filter_eq_nil_iff]
    intro a ha
    obtain ⟨o, ho, rfl⟩ := List.mem_map.mp ha
    by_cases hc : ((l.filter (fun o =>
        o.mealId == mid && o.status == OrderStatus.active)).map Order.orderId).contains o.orderId
        = true
    · rw [if_pos hc]
      simp
    · rw [if_neg hc]
      intro hcontra
      apply hc
      apply List.elem_eq_true_of_mem
      exact List.mem_map_of_mem _ (List.mem_filter.mpr ⟨ho, hcontra⟩)
  rw [hnil]
  rfl

theorem refundCascade_meals (L : List Order) (s : DB) :
    (refundCascade L s).meals = s.meals := by
  induction L generalizing s with
  | nil => rfl
  | cons o rest ih => exact ih _

theorem refundCascade_nextOrderId (L : List Order) (s : DB) :
    (refundCascade L s).nextOrderId = s.nextOrderId := by
  induction L generalizing s with
  | nil => rfl
  | cons o rest ih => exact ih _

theorem refundCascade_nextMealId (L : List Order) (s : DB) :
    (refundCascade L s).nextMealId = s.nextMealId := by
  induction L generalizing s with
  | nil => rfl
  | cons o rest ih => exact ih _

theorem refundCascade_ledger (L : List Order) (s : DB) :
    (refundCascade L s).ledger = s.ledger ++ L.map refundEntry := by
  induction L generalizing s with
  | nil => simp [refundCascade]
  | cons o rest ih =>
    rw [refundCascade, ih]
    simp [refundOrder, refundEntry]

theorem refundCascade_balOf (L : List Order) (s : DB) (v : Nat) :
    balOf (refundCascade L s).users v =
      (balOf s.users v).map (fun b => b + refundTotal v L) := by
  induction L generalizing s with
  | nil =>
    show balOf s.users v = (balOf s.users v).map (fun b => b + refundTotal v [])
    have h0 : refundTotal v [] = 0 := rfl
    rw [h0]
    cases balOf s.users v <;> simp
  | cons o rest ih =>
    rw [refundCascade, ih]
    have husers : (refundOrder s o.orderId o.userId o.amountCents).users
        = creditUser s.users o.userId o.amountCents := rfl
    rw [husers, balOf_creditUser, Option.map_map]
    have htot : refundTotal v (o :: rest) =
        (if v = o.userId then o.amountCents else 0) + refundTotal v rest := by
      unfold refundTotal
      rw [List.filter_cons]
      by_cases h : v = o.userId
      · rw [if_pos (by simpa using h.symm), if_pos h, List.map_cons, List.sum_cons]
      · rw [if_neg (by simpa using fun he => h he.symm), if_neg h, zero_add]
    congr 1
    funext b
    simp only [Function.comp_apply, htot]
    rw [add_assoc]

theorem refundCascade_orders (L : List Order) (s : DB) :
    (refundCascade L s).orders = markManyCanceled (L.map Order.orderId) s.orders := by
  induction L generalizing s with
  | nil => rw [List.map_nil, markManyCanceled_nil]; rfl
  | cons o rest ih =>
    rw [refundCascade, ih, List.map_cons, markManyCanceled_cons]
    rfl

theorem getOrCreateUser_meals (s : DB) (uid : Nat) :
    (getOrCreateUser s uid).meals = s.meals := by
  unfold getOrCreateUser
  split <;> rfl

theorem getOrCreateUser_orders (s : DB) (uid : Nat) :
    (getOrCreateUser s uid).orders = s.orders := by
  unfold getOrCreateUser
  split <;> rfl

theorem getOrCreateUser_ledger (s : DB) (uid : Nat) :
    (getOrCreateUser s uid).ledger = s.ledger := by
  unfold getOrCreateUser
  split <;> rfl

theorem getOrCreateUser_nextOrderId (s : DB) (uid : Nat) :
    (getOrCreateUser s uid).nextOrderId = s.nextOrderId := by
  unfold getOrCreateUser
  split <;> rfl

theorem qtySumIn_singleton (o : Order) (mid : Nat) :
    qtySumIn [o] mid =
      if (o.mealId == mid && o.status == OrderStatus.active) = true then o.qty else 0 := by
  unfold qtySumIn activeOrdersIn
  by_cases h : (o.mealId == mid && o.status == OrderStatus.active) = true
  · rw [if_pos h, List.filter_cons, if_pos h]
    simp
  · rw [if_neg h, List.filter_cons, if_neg h]
    simp

theorem capacityInvariant_congr {s t : DB} (hm : t.meals = s.meals)
    (ho : t.orders = s.orders) (h : capacityInvariant s) : capacityInvariant t := by
  intro m hmem
  have hmem2 : m ∈ s.meals := hm ▸ hmem
  have h2 := h m hmem2
  unfold activeQtySum at *
  rw [ho]
  exact h2

theorem capacityInvariant_of_maps {s t : DB} (h : capacityInvariant s)
    (fm : Meal → Meal)
    (hfm : ∀ m, (fm m).mealId = m.mealId ∧ (fm m).capacity = m.capacity)
    (hm : t.meals = s.meals.map fm)
    (fo : Order → Order)
    (hfo : ∀ o, (fo o).mealId = o.mealId ∧ (fo o).status = o.status ∧ (fo o).qty = o.qty)
    (ho : t.orders = s.orders.map fo) :
    capacityInvariant t := by
  intro m hmem
  rw [hm] at hmem
  obtain ⟨m0, hm0, rfl⟩ := List.mem_map.mp hmem
  unfold activeQtySum
  rw [ho, (hfm m0).1, qtySumIn_map_preserving fo hfo, (hfm m0).2]
  exact h m0 hm0

theorem setMealStatus_preserving (mid : Nat) (st : MealStatus) :
    ∀ m, ((fun m : Meal => if m.mealId == mid then { m with status := st } else m) m).mealId
        = m.mealId ∧
      ((fun m : Meal => if m.mealId == mid then { m with status := st } else m) m).capacity
        = m.capacity := by
  intro m
  dsimp only
  by_cases h : (m.mealId == mid) = true
  · rw [if_pos h]
    exact ⟨rfl, rfl⟩
  · rw [if_neg h]
    exact ⟨rfl, rfl⟩

theorem setOrdersLock_preserving (mid : Nat) (b : Bool) :
    ∀ o, ((fun o : Order =>
        if o.mealId == mid && o.status == OrderStatus.active
        then { o with lockedAt := b } else o) o).mealId = o.mealId ∧
      ((fun o : Order =>
        if o.mealId == mid && o.status == OrderStatus.active
        then { o with lockedAt := b } else o) o).status = o.status ∧
      ((fun o : Order =>
        if o.mealId == mid && o.status == OrderStatus.active
        then { o with lockedAt := b } else o) o).qty = o.qty := by
  intro o
  by_cases hc : (o.mealId == mid && o.status == OrderStatus.active) = true <;> simp [hc]

theorem capacityInvariant_lockMeal (s : DB) (mid : Nat) (h : capacityInvariant s) :
    capacityInvariant (lockMeal s mid).1 := by
  unfold lockMeal
  split
  · exact capacityInvariant_of_maps h _ (setMealStatus_preserving mid .locked) rfl
      _ (setOrdersLock_preserving mid true) rfl
  · exact h

theorem capacityInvariant_unlockMeal (s : DB) (mid : Nat) (h : capacityInvariant s) :
    capacityInvariant (unlockMeal s mid).1 := by
  unfold unlockMeal
  split
  · exact capacityInvariant_of_maps h _ (setMealStatus_preserving mid .published) rfl
      _ (setOrdersLock_preserving mid false) rfl
  · exact h

theorem capacityInvariant_completeMeal (s : DB) (mid : Nat) (h : capacityInvariant s) :
    capacityInvariant (completeMeal s mid).1 := by
  unfold completeMeal
  intro m hm
  obtain ⟨m0, hm0, rfl⟩ := List.mem_map.mp hm
  have hpres : ((fun m : Meal =>
      if m.mealId == mid && m.status == MealStatus.locked
      then { m with status := MealStatus.completed } else m) m0).mealId = m0.mealId ∧
      ((fun m : Meal =>
      if m.mealId == mid && m.status == MealStatus.locked
      then { m with status := MealStatus.completed } else m) m0).capacity = m0.capacity := by
    dsimp only
    by_cases hc : (m0.mealId == mid && m0.status == MealStatus.locked) = true
    · rw [if_pos hc]
      exact ⟨rfl, rfl⟩
    · rw [if_neg hc]
      exact ⟨rfl, rfl⟩
  unfold activeQtySum
  rw [hpres.1, hpres.2]
  exact h m0 hm0

theorem capacityInvariant_recharge (s : DB) (uid : Nat) (amt : Int)
    (h : capacityInvariant s) : capacityInvariant (rechargeUser s uid amt).1 := by
  unfold rechargeUser
  split
  · exact h
  · exact capacityInvariant_congr rfl rfl h

theorem capacityInvariant_repostMeal (s : DB) (mid : Nat) (req : MealReq)
    (h : capacityInvariant s) (hqn : qtysNonneg s) (hrc : 0 ≤ req.capacity) :
    capacityInvariant (repostMeal s mid req).1 := by
  unfold repostMeal
  split
  next hpub =>
    dsimp only
    intro m hm
    rw [refundCascade_meals] at hm
    obtain ⟨m0, hm0, rfl⟩ := List.mem_map.mp hm
    unfold activeQtySum
    rw [refundCascade_orders]
    dsimp only
    by_cases hc : (m0.mealId == mid && m0.status == MealStatus.published) = true
    · rw [if_pos hc]
      have hid : (updateMealFields m0 req).mealId = m0.mealId := rfl
      have hcp : (updateMealFields m0 req).capacity = req.capacity := rfl
      rw [hid, hcp]
      have hmid : m0.mealId = mid := by
        have := (Bool.and_eq_true _ _).mp hc
        simpa using this.1
      rw [hmid]
      rw [qtySumIn_markAll_zero]
      exact hrc
    · rw [if_neg hc]
      exact le_trans (qtySumIn_markManyCanceled_le _ _ _ hqn) (h m0 hm0)
  · exact h

theorem capacityInvariant_createMeal (s : DB) (req : MealReq)
    (h : capacityInvariant s) (hrc : 0 ≤ req.capacity)
    (hclean : canceledMealsHaveNoActive s)
    (hfresh : activeQtySum s s.nextMealId = 0) :
    capacityInvariant (createMeal s req).1 := by
  unfold createMeal
  split
  next existing hex =>
    split
    next hcanc =>
      dsimp only
      intro m hm
      obtain ⟨m0, hm0, rfl⟩ := List.mem_map.mp hm
      unfold activeQtySum
      dsimp only
      by_cases hc : (m0.mealId == existing.mealId) = true
      · rw [if_pos hc]
        have hid : ({ updateMealFields m0 req with status := MealStatus.published }).mealId
            = m0.mealId := rfl
        have hcp : ({ updateMealFields m0 req with status := MealStatus.published }).capacity
            = req.capacity := rfl
        rw [hid, hcp]
        have hmem : existing ∈ s.meals := List.mem_of_find?_eq_some hex
        have h0 := hclean existing hmem hcanc
        unfold activeQtySum at h0
        have hideq : m0.mealId = existing.mealId := by simpa using hc
        rw [hideq]
        rw [h0]
        exact hrc
      · rw [if_neg hc]
        exact h m0 hm0
    · exact h
  · dsimp only
    intro m hm
    unfold activeQtySum
    unfold activeQtySum at hfresh
    dsimp only
    rcases List.mem_append.mp hm with hold | hnew
    · exact h m hold
    · rw [List.mem_singleton.mp hnew]
      exact hfresh.trans_le hrc

theorem submitOrder_ok_elim {s : DB} {uid mid : Nat} {qty : Int} {sel : List String}
    {s' : DB} {r : CreateOrderResult}
    (h : submitOrder s uid mid qty sel = (s', .ok r)) :
    qty = 1 ∧
    ∃ meal, findMeal (getOrCreateUser s uid) mid = some meal ∧
      meal.status = .published ∧
      hasActiveOrder (getOrCreateUser s uid) uid mid = false ∧
      activeQtySum (getOrCreateUser s uid) mid + qty ≤ meal.capacity ∧
      r.orderId = (getOrCreateUser s uid).nextOrderId ∧
      r.amountCents = calcOrderAmount meal qty sel ∧
      s' = admitTransaction (getOrCreateUser s uid) uid mid qty sel
        (calcOrderAmount meal qty sel) := by
  unfold submitOrder at h
  split at h
  · simp at h
  next hq =>
    have hq1 : qty = 1 := by omega
    dsimp only at h
    split at h
    · simp at h
    next meal hmeal =>
      split at h
      · simp at h
      next hst =>
        split at h
        · simp at h
        next hdup =>
          split at h
          · simp at h
          next hcap =>
            rw [Prod.mk.injEq] at h
            obtain ⟨hs, hr⟩ := h
            have hr2 := hr.symm
            rw [Except.ok.injEq] at hr2
            refine ⟨hq1, meal, hmeal, ?_, ?_, ?_, ?_, ?_, ?_⟩
            · exact not_not.mp hst
            · exact Bool.not_eq_true _ ▸ (by simpa using hdup)
            · omega
            · rw [hr2]
            · rw [hr2]
            · exact hs.symm

theorem capacityInvariant_submit (s : DB) (uid mid : Nat) (qty : Int) (sel : List String)
    (hcap : capacityInvariant s) (hnd : mealIdsNodup s) :
    capacityInvariant (submitOrder s uid mid qty sel).1 := by
  have hcap1 : capacityInvariant (getOrCreateUser s uid) :=
    capacityInvariant_congr (getOrCreateUser_meals s uid) (getOrCreateUser_orders s uid) hcap
  unfold submitOrder
  split
  · exact hcap
  next hq =>
    dsimp only
    split
    · exact hcap1
    next meal hmeal =>
      split
      · exact hcap1
      next hst =>
        split
        · exact hcap1
        next hdup =>
          split
          · exact hcap1
          next hcapg =>
            intro m hm
            have hm1 : m ∈ (getOrCreateUser s uid).meals := hm
            have hmealmem : meal ∈ (getOrCreateUser s uid).meals :=
              List.mem_of_find?_eq_some hmeal
            have hmealid : meal.mealId = mid := by
              simpa using List.find?_some hmeal
            unfold activeQtySum admitTransaction
            dsimp only
            rw [qtySumIn_append, qtySumIn_singleton]
            by_cases hmm : m.mealId = mid
            · have hnd1 : ((getOrCreateUser s uid).meals.map Meal.mealId).Nodup := by
                rw [getOrCreateUser_meals]
                exact hnd
              have hmmeal : m = meal :=
                List.inj_on_of_nodup_map hnd1 hm1 hmealmem (by rw [hmm, hmealid])
              have hcond : ((newOrderRow (getOrCreateUser s uid) uid mid qty sel
                  (calcOrderAmount meal qty sel)).mealId == m.mealId &&
                  (newOrderRow (getOrCreateUser s uid) uid mid qty sel
                  (calcOrderAmount meal qty sel)).status == OrderStatus.active) = true := by
                unfold newOrderRow
                simp [hmm]
              rw [if_pos hcond]
              have hqn : (newOrderRow (getOrCreateUser s uid) uid mid qty sel
                  (calcOrderAmount meal qty sel)).qty = qty := rfl
              rw [hqn, hmm, hmmeal]
              unfold activeQtySum at hcapg
              omega
            · have hcond : ((newOrderRow (getOrCreateUser s uid) uid mid qty sel
                  (calcOrderAmount meal qty sel)).mealId == m.mealId &&
                  (newOrderRow (getOrCreateUser s uid) uid mid qty sel
                  (calcOrderAmount meal qty sel)).status == OrderStatus.active) = false := by
                unfold newOrderRow
                simp
                intro hc
                exact absurd hc.symm hmm
              rw [if_neg (by rw [hcond]; exact fun hc => Bool.false_ne_true hc), add_zero]
              have := hcap1 m hm1
              unfold activeQtySum at this
              exact this

theorem markOrderCanceled_eq_markMany (orders : List Order) (oid : Nat) :
    markOrderCanceled orders oid = markManyCanceled [oid] orders := by
  unfold markOrderCanceled markManyCanceled
  congr 1
  funext o
  by_cases h : o.orderId = oid
  · simp [h]
  · simp [h, List.contains_cons]

theorem capacityInvariant_refundOrder {s : DB} (oid uid : Nat) (amt : Int)
    (h : capacityInvariant s) (hqn : qtysNonneg s) :
    capacityInvariant (refundOrder s oid uid amt) := by
  intro m hm
  have h2 := h m hm
  unfold activeQtySum at *
  unfold refundOrder
  dsimp only
  rw [markOrderCanceled_eq_markMany]
  exact le_trans (qtySumIn_markManyCanceled_le _ _ _ hqn) h2

theorem cancelOrderInternal_fst_meals (s : DB) (oid : Nat) :
    (cancelOrderInternal s oid).1.meals = s.meals := by
  unfold cancelOrderInternal
  split <;> rfl

theorem capacityInvariant_cancelOrderInternal (s : DB) (oid : Nat)
    (h : capacityInvariant s) (hqn : qtysNonneg s) :
    capacityInvariant (cancelOrderInternal s oid).1 := by
  unfold cancelOrderInternal
  split
  · exact h
  next o ho => exact capacityInvariant_refundOrder _ _ _ h hqn

theorem qtysNonneg_refundOrder {s : DB} (oid uid : Nat) (amt : Int)
    (hqn : qtysNonneg s) : qtysNonneg (refundOrder s oid uid amt) := by
  intro o ho
  unfold refundOrder at ho
  dsimp only at ho
  rw [markOrderCanceled_eq_markMany] at ho
  unfold markManyCanceled at ho
  obtain ⟨o0, ho0, rfl⟩ := List.mem_map.mp ho
  have hp := (markManyCanceled_preserving [oid] o0).2.1
  rw [hp]
  exact hqn o0 ho0

theorem qtysNonneg_cancelOrderInternal (s : DB) (oid : Nat)
    (hqn : qtysNonneg s) : qtysNonneg (cancelOrderInternal s oid).1 := by
  unfold cancelOrderInternal
  split
  · exact hqn
  next o ho => exact qtysNonneg_refundOrder _ _ _ hqn

theorem capacityInvariant_cancelOrder (s : DB) (oid : Nat)
    (h : capacityInvariant s) (hqn : qtysNonneg s) :
    capacityInvariant (cancelOrder s oid).1 := by
  unfold cancelOrder
  split
  · exact h
  next o ho =>
    split
    · exact h
    · exact capacityInvariant_refundOrder _ _ _ h hqn

theorem capacityInvariant_update (s : DB) (uid oid : Nat) (qty : Int) (sel : List String)
    (h : capacityInvariant s) (hnd : mealIdsNodup s) (hqn : qtysNonneg s) :
    capacityInvariant (updateOrder s uid oid qty sel).1 := by
  unfold updateOrder
  split
  · exact h
  next o ho =>
    split
    · exact h
    · split
      next s1 e heq =>
        have : s1 = (cancelOrderInternal s oid).1 := by rw [heq]
        rw [this]
        exact capacityInvariant_cancelOrderInternal s oid h hqn
      next s1 u heq =>
        have hs1 : s1 = (cancelOrderInternal s oid).1 := by rw [heq]
        have hcap1 : capacityInvariant s1 := by
          rw [hs1]
          exact capacityInvariant_cancelOrderInternal s oid h hqn
        have hnd1 : mealIdsNodup s1 := by
          show (s1.meals.map Meal.mealId).Nodup
          rw [hs1, cancelOrderInternal_fst_meals]
          exact hnd
        exact capacityInvariant_submit s1 uid o.mealId qty sel hcap1 hnd1

theorem capacityInvariant_cancelMeal (s : DB) (mid : Nat)
    (h : capacityInvariant s) (hqn : qtysNonneg s) :
    capacityInvariant (cancelMeal s mid).1 := by
  unfold cancelMeal
  split
  · dsimp only
    intro m hm
    rw [refundCascade_meals] at hm
    obtain ⟨m0, hm0, rfl⟩ := List.mem_map.mp hm
    unfold activeQtySum
    rw [refundCascade_orders]
    have hid := (setMealStatus_preserving mid MealStatus.canceled m0).1
    have hcp := (setMealStatus_preserving mid MealStatus.canceled m0).2
    dsimp only at hid hcp
    rw [hid, hcp]
    exact le_trans (qtySumIn_markManyCanceled_le _ _ _ hqn) (h m0 hm0)
  · exact h

theorem filter_active_markMany (ids : List Nat) (l : List Order) :
    (markManyCanceled ids l).filter (fun o => o.status == OrderStatus.active) =
      l.filter (fun o => !ids.contains o.orderId && o.status == OrderStatus.active) := by
  unfold markManyCanceled
  rw [List.filter_map]
  have hcong : ∀ o ∈ l.filter ((fun o : Order => o.status == OrderStatus.active) ∘
      (fun o : Order => if ids.contains o.orderId
        then { o with status := OrderStatus.canceled } else o)),
      (fun o : Order => if ids.contains o.orderId
        then { o with status := OrderStatus.canceled } else o) o = o := by
    intro o ho
    have hp := List.of_mem_filter ho
    dsimp only [Function.comp] at hp
    by_cases hc : ids.contains o.orderId = true
    · rw [if_pos hc] at hp
      simp at hp
    · dsimp only
      rw [if_neg hc]
  rw [List.map_congr_left hcong, List.map_id']
  congr 1
  funext o
  dsimp only [Function.comp]
  by_cases hc : ids.contains o.orderId = true
  · rw [if_pos hc, hc]
    simp
  · rw [if_neg hc]
    have hfc : ids.contains o.orderId = false := by
      cases h2 : ids.contains o.orderId
      · rfl
      · exact absurd h2 hc
    rw [hfc]
    simp

theorem atMostOneActive_markMany {l : List Order} (ids : List Nat)
    (h : (l.filter (fun o => o.status == OrderStatus.active)).Pairwise
      (fun o1 o2 => ¬(o1.userId = o2.userId ∧ o1.mealId = o2.mealId))) :
    ((markManyCanceled ids l).filter (fun o => o.status == OrderStatus.active)).Pairwise
      (fun o1 o2 => ¬(o1.userId = o2.userId ∧ o1.mealId = o2.mealId)) := by
  rw [filter_active_markMany]
  have heq : l.filter (fun o => !ids.contains o.orderId && o.status == OrderStatus.active)
      = (l.filter (fun o => o.status == OrderStatus.active)).filter
          (fun o => !ids.contains o.orderId) := by
    rw [List.filter_filter]
  rw [heq]
  exact h.sublist (List.filter_sublist _)

theorem atMostOneActive_map_preserving {l : List Order} (f : Order → Order)
    (hf : ∀ o, (f o).status = o.status ∧ (f o).userId = o.userId ∧ (f o).mealId = o.mealId)
    (h : (l.filter (fun o => o.status == OrderStatus.active)).Pairwise
      (fun o1 o2 => ¬(o1.userId = o2.userId ∧ o1.mealId = o2.mealId))) :
    ((l.map f).filter (fun o => o.status == OrderStatus.active)).Pairwise
      (fun o1 o2 => ¬(o1.userId = o2.userId ∧ o1.mealId = o2.mealId)) := by
  rw [List.filter_map]
  have hpred : ((fun o : Order => o.status == OrderStatus.active) ∘ f)
      = fun o : Order => o.status == OrderStatus.active := by
    funext o
    dsimp only [Function.comp]
    rw [(hf o).1]
  rw [hpred, List.pairwise_map]
  refine h.imp ?_
  intro a b hab hcon
  exact hab ⟨by rw [← (hf a).2.1, ← (hf b).2.1, hcon.1],
             by rw [← (hf a).2.2, ← (hf b).2.2, hcon.2]⟩

theorem atMostOneActive_refundOrder {s : DB} (oid uid : Nat) (amt : Int)
    (h : atMostOneActive s) : atMostOneActive (refundOrder s oid uid amt) := by
  unfold atMostOneActive at h ⊢
  unfold refundOrder
  dsimp only
  rw [markOrderCanceled_eq_markMany]
  exact atMostOneActive_markMany [oid] h

theorem atMostOneActive_cancelOrderInternal (s : DB) (oid : Nat)
    (h : atMostOneActive s) : atMostOneActive (cancelOrderInternal s oid).1 := by
  unfold cancelOrderInternal
  split
  · exact h
  next o ho => exact atMostOneActive_refundOrder _ _ _ h

theorem atMostOneActive_cancelOrder (s : DB) (oid : Nat)
    (h : atMostOneActive s) : atMostOneActive (cancelOrder s oid).1 := by
  unfold cancelOrder
  split
  · exact h
  next o ho =>
    split
    · exact h
    · exact atMostOneActive_refundOrder _ _ _ h

theorem atMostOneActive_getOrCreate (s : DB) (uid : Nat)
    (h : atMostOneActive s) : atMostOneActive (getOrCreateUser s uid) := by
  unfold atMostOneActive at h ⊢
  rw [getOrCreateUser_orders]
  exact h

theorem atMostOneActive_submit (s : DB) (uid mid : Nat) (qty : Int) (sel : List String)
    (h : atMostOneActive s) : atMostOneActive (submitOrder s uid mid qty sel).1 := by
  have h1 := atMostOneActive_getOrCreate s uid h
  unfold submitOrder
  split
  · exact h
  next hq =>
    dsimp only
    split
    · exact h1
    next meal hmeal =>
      split
      · exact h1
      next hst =>
        split
        · exact h1
        next hdup =>
          split
          · exact h1
          next hcap =>
            unfold atMostOneActive at h1 ⊢
            unfold admitTransaction
            dsimp only
            rw [List.filter_append]
            have hone : ([newOrderRow (getOrCreateUser s uid) uid mid qty sel
                (calcOrderAmount meal qty sel)].filter
                (fun o => o.status == OrderStatus.active)) =
                [newOrderRow (getOrCreateUser s uid) uid mid qty sel
                  (calcOrderAmount meal qty sel)] := by
              rw [List.filter_cons]
              rfl
            rw [hone, List.pairwise_append]
            refine ⟨h1, List.pairwise_singleton _ _, ?_⟩
            intro a ha b hb
            have hb2 : b = newOrderRow (getOrCreateUser s uid) uid mid qty sel
                (calcOrderAmount meal qty sel) := List.mem_singleton.mp hb
            have hamem : a ∈ (getOrCreateUser s uid).orders := (List.mem_filter.mp ha).1
            have haact : (a.status == OrderStatus.active) = true := (List.mem_filter.mp ha).2
            have hdup2 : hasActiveOrder (getOrCreateUser s uid) uid mid = false := by
              cases h2 : hasActiveOrder (getOrCreateUser s uid) uid mid
              · rfl
              · exact absurd h2 hdup
            unfold hasActiveOrder at hdup2
            rw [List.any_eq_false] at hdup2
            have hna := hdup2 a hamem
            intro hcon
            apply hna
            rw [hb2] at hcon
            have hu : a.userId = uid := hcon.1
            have hm2 : a.mealId = mid := hcon.2
            simp [hu, hm2, haact]

theorem atMostOneActive_update (s : DB) (uid oid : Nat) (qty : Int) (sel : List String)
    (h : atMostOneActive s) : atMostOneActive (updateOrder s uid oid qty sel).1 := by
  unfold updateOrder
  split
  · exact h
  next o ho =>
    split
    · exact h
    · split
      next s1 e heq =>
        have hs1 : s1 = (cancelOrderInternal s oid).1 := by rw [heq]
        rw [hs1]
        exact atMostOneActive_cancelOrderInternal s oid h
      next s1 u heq =>
        have hs1 : s1 = (cancelOrderInternal s oid).1 := by rw [heq]
        have h2 : atMostOneActive s1 := by
          rw [hs1]
          exact atMostOneActive_cancelOrderInternal s oid h
        exact atMostOneActive_submit s1 uid o.mealId qty sel h2

theorem atMostOneActive_cancelMeal (s : DB) (mid : Nat)
    (h : atMostOneActive s) : atMostOneActive (cancelMeal s mid).1 := by
  unfold cancelMeal
  split
  · dsimp only
    unfold atMostOneActive at h ⊢
    rw [refundCascade_orders]
    exact atMostOneActive_markMany _ h
  · exact h

theorem atMostOneActive_repostMeal (s : DB) (mid : Nat) (req : MealReq)
    (h : atMostOneActive s) : atMostOneActive (repostMeal s mid req).1 := by
  unfold repostMeal
  split
  · dsimp only
    unfold atMostOneActive at h ⊢
    rw [refundCascade_orders]
    exact atMostOneActive_markMany _ h
  · exact h

theorem atMostOneActive_lockMeal (s : DB) (mid : Nat)
    (h : atMostOneActive s) : atMostOneActive (lockMeal s mid).1 := by
  unfold lockMeal
  split
  · unfold atMostOneActive at h ⊢
    dsimp only
    unfold setOrdersLock
    refine atMostOneActive_map_preserving _ ?_ h
    intro o
    have := setOrdersLock_preserving mid true o
    dsimp only at this
    by_cases hc : (o.mealId == mid && o.status == OrderStatus.active) = true
    · rw [if_pos hc]
      exact ⟨rfl, rfl, rfl⟩
    · rw [if_neg hc]
      exact ⟨rfl, rfl, rfl⟩
  · exact h

theorem atMostOneActive_unlockMeal (s : DB) (mid : Nat)
    (h : atMostOneActive s) : atMostOneActive (unlockMeal s mid).1 := by
  unfold unlockMeal
  split
  · unfold atMostOneActive at h ⊢
    dsimp only
    unfold setOrdersLock
    refine atMostOneActive_map_preserving _ ?_ h
    intro o
    by_cases hc : (o.mealId == mid && o.status == OrderStatus.active) = true
    · rw [if_pos hc]
      exact ⟨rfl, rfl, rfl⟩
    · rw [if_neg hc]
      exact ⟨rfl, rfl, rfl⟩
  · exact h

theorem atMostOneActive_completeMeal (s : DB) (mid : Nat)
    (h : atMostOneActive s) : atMostOneActive (completeMeal s mid).1 := h

theorem atMostOneActive_recharge (s : DB) (uid : Nat) (amt : Int)
    (h : atMostOneActive s) : atMostOneActive (rechargeUser s uid amt).1 := by
  unfold rechargeUser
  split
  · exact h
  · exact h

theorem atMostOneActive_createMeal (s : DB) (req : MealReq)
    (h : atMostOneActive s) : atMostOneActive (createMeal s req).1 := by
  unfold createMeal
  split
  next existing hex =>
    split
    · exact h
    · exact h
  · exact h

theorem atMostOneActive_patch (s : DB) (mid : Nat) (req : MealReq)
    (h : atMostOneActive s) : atMostOneActive (updateMealPatch s mid req).1 := h

theorem allQtyOne_markMany (ids : List Nat) {l : List Order}
    (h : ∀ o ∈ l, o.qty = 1) : ∀ o ∈ markManyCanceled ids l, o.qty = 1 := by
  intro o ho
  unfold markManyCanceled at ho
  obtain ⟨o0, ho0, rfl⟩ := List.mem_map.mp ho
  have hp := (markManyCanceled_preserving ids o0).2.1
  rw [hp]
  exact h o0 ho0

theorem allQtyOne_refundOrder {s : DB} (oid uid : Nat) (amt : Int)
    (h : allOrderQtyOne s) : allOrderQtyOne (refundOrder s oid uid amt) := by
  unfold allOrderQtyOne at h ⊢
  unfold refundOrder
  dsimp only
  rw [markOrderCanceled_eq_markMany]
  exact allQtyOne_markMany [oid] h

theorem allQtyOne_cancelOrderInternal (s : DB) (oid : Nat)
    (h : allOrderQtyOne s) : allOrderQtyOne (cancelOrderInternal s oid).1 := by
  unfold cancelOrderInternal
  split
  · exact h
  next o ho => exact allQtyOne_refundOrder _ _ _ h

theorem allQtyOne_cancelOrder (s : DB) (oid : Nat)
    (h : allOrderQtyOne s) : allOrderQtyOne (cancelOrder s oid).1 := by
  unfold cancelOrder
  split
  · exact h
  next o ho =>
    split
    · exact h
    · exact allQtyOne_refundOrder _ _ _ h

theorem allQtyOne_submit (s : DB) (uid mid : Nat) (qty : Int) (sel : List String)
    (h : allOrderQtyOne s) : allOrderQtyOne (submitOrder s uid mid qty sel).1 := by
  have h1 : allOrderQtyOne (getOrCreateUser s uid) := by
    unfold allOrderQtyOne at h ⊢
    rw [getOrCreateUser_orders]
    exact h
  unfold submitOrder
  split
  · exact h
  next hq =>
    have hq1 : qty = 1 := by omega
    dsimp only
    split
    · exact h1
    next meal hmeal =>
      split
      · exact h1
      next hst =>
        split
        · exact h1
        next hdup =>
          split
          · exact h1
          next hcap =>
            intro o ho
            unfold admitTransaction at ho
            dsimp only at ho
            rcases List.mem_append.mp ho with hold | hnew
            · exact h1 o hold
            · rw [List.mem_singleton.mp hnew]
              exact hq1

theorem allQtyOne_update (s : DB) (uid oid : Nat) (qty : Int) (sel : List String)
    (h : allOrderQtyOne s) : allOrderQtyOne (updateOrder s uid oid qty sel).1 := by
  unfold updateOrder
  split
  · exact h
  next o ho =>
    split
    · exact h
    · split
      next s1 e heq =>
        have hs1 : s1 = (cancelOrderInternal s oid).1 := by rw [heq]
        rw [hs1]
        exact allQtyOne_cancelOrderInternal s oid h
      next s1 u heq =>
        have hs1 : s1 = (cancelOrderInternal s oid).1 := by rw [heq]
        have h2 : allOrderQtyOne s1 := by
          rw [hs1]
          exact allQtyOne_cancelOrderInternal s oid h
        exact allQtyOne_submit s1 uid o.mealId qty sel h2

theorem allQtyOne_cancelMeal (s : DB) (mid : Nat)
    (h : allOrderQtyOne s) : allOrderQtyOne (cancelMeal s mid).1 := by
  unfold cancelMeal
  split
  · dsimp only
    unfold allOrderQtyOne at h ⊢
    rw [refundCascade_orders]
    exact allQtyOne_markMany _ h
  · exact h

theorem allQtyOne_repostMeal (s : DB) (mid : Nat) (req : MealReq)
    (h : allOrderQtyOne s) : allOrderQtyOne (repostMeal s mid req).1 := by
  unfold repostMeal
  split
  · dsimp only
    unfold allOrderQtyOne at h ⊢
    rw [refundCascade_orders]
    exact allQtyOne_markMany _ h
  · exact h

theorem allQtyOne_setOrdersLock {l : List Order} (mid : Nat) (b : Bool)
    (h : ∀ o ∈ l, o.qty = 1) : ∀ o ∈ setOrdersLock l mid b, o.qty = 1 := by
  intro o ho
  unfold setOrdersLock at ho
  obtain ⟨o0, ho0, rfl⟩ := List.mem_map.mp ho
  have hp := (setOrdersLock_preserving mid b o0).2.2
  rw [hp]
  exact h o0 ho0

theorem allQtyOne_lockMeal (s : DB) (mid : Nat)
    (h : allOrderQtyOne s) : allOrderQtyOne (lockMeal s mid).1 := by
  unfold lockMeal
  split
  · exact allQtyOne_setOrdersLock mid true h
  · exact h

theorem allQtyOne_unlockMeal (s : DB) (mid : Nat)
    (h : allOrderQtyOne s) : allOrderQtyOne (unlockMeal s mid).1 := by
  unfold unlockMeal
  split
  · exact allQtyOne_setOrdersLock mid false h
  · exact h

theorem submitOrder_invalidQuantity (s : DB) (uid mid : Nat) (qty : Int)
    (sel : List String) (hq : qty ≠ 1) :
    submitOrder s uid mid qty sel = (s, .error .invalidQuantity) := by
  unfold submitOrder
  rw [if_pos hq]

theorem submitOrder_capacityExceeded (s : DB) (uid mid : Nat) (qty : Int)
    (sel : List String) (meal : Meal)
    (hu : (findUser s uid).isSome) (hm : findMeal s mid = some meal)
    (hst : meal.status = .published) (hdup : hasActiveOrder s uid mid = false)
    (hq : qty = 1) (hover : activeQtySum s mid + qty > meal.capacity) :
    submitOrder s uid mid qty sel = (s, .error .capacityExceeded) := by
  unfold submitOrder
  rw [if_neg (by omega)]
  dsimp only
  rw [getOrCreateUser_of_isSome hu, hm]
  dsimp only
  rw [if_neg (by simp [hst]), if_neg (by simp [hdup]), if_pos hover]

theorem submitOrder_duplicate (s : DB) (uid mid : Nat) (qty : Int)
    (sel : List String) (meal : Meal)
    (hu : (findUser s uid).isSome) (hm : findMeal s mid = some meal)
    (hst : meal.status = .published) (hdup : hasActiveOrder s uid mid = true)
    (hq : qty = 1) :
    submitOrder s uid mid qty sel = (s, .error .duplicateOrder) := by
  unfold submitOrder
  rw [if_neg (by omega)]
  dsimp only
  rw [getOrCreateUser_of_isSome hu, hm]
  dsimp only
  rw [if_neg (by simp [hst]), if_pos hdup]

/-- C3 (confirmed): `cancel(meal)` is valid exactly from `published` or
`locked` (otherwise it fails with an error and returns the state
unchanged); on success, in one transaction, every order row of the meal
ends canceled, the ledger is extended by exactly one `refund` entry per
previously-active order of the meal, each user's balance is credited by
exactly the sum of their canceled orders' amounts, and the meal's rows are
set to `canceled`. -/
theorem cancelMeal_spec (s : DB) (mid : Nat) (m : Meal)
    (hm : findMeal s mid = some m) :
    ((m.status = .published ∨ m.status = .locked) →
      (cancelMeal s mid).2 = .ok .canceled ∧
      (∀ x ∈ (cancelMeal s mid).1.meals, x.mealId = mid → x.status = .canceled) ∧
      (∀ x ∈ (cancelMeal s mid).1.orders, x.mealId = mid → x.status = .canceled) ∧
      (cancelMeal s mid).1.ledger =
        s.ledger ++ (activeOrdersIn s.orders mid).map refundEntry ∧
      (∀ v, balOf (cancelMeal s mid).1.users v =
        (balOf s.users v).map
          (fun b => b + refundTotal v (activeOrdersIn s.orders mid)))) ∧
    (¬(m.status = .published ∨ m.status = .locked) →
      cancelMeal s mid = (s, .error .mealStateInvalid)) := by
  have hst : mealStatusOf s mid = some m.status := by
    unfold mealStatusOf
    rw [hm]
    rfl
  constructor
  · intro hstat
    have hcond : mealStatusOf s mid = some .published ∨
        mealStatusOf s mid = some .locked := by
      rcases hstat with h | h
      · exact Or.inl (by rw [hst, h])
      · exact Or.inr (by rw [hst, h])
    unfold cancelMeal
    rw [if_pos hcond]
    dsimp only
    refine ⟨rfl, ?_, ?_, ?_, ?_⟩
    · intro x hx hxid
      rw [refundCascade_meals] at hx
      obtain ⟨x0, hx0, rfl⟩ := List.mem_map.mp hx
      by_cases hc : (x0.mealId == mid) = true
      · rw [if_pos hc]
      · rw [if_neg hc] at hxid ⊢
        exact absurd (by simp [hxid]) hc
    · intro x hx hxid
      rw [refundCascade_orders] at hx
      obtain ⟨x0, hx0, rfl⟩ := List.mem_map.mp hx
      by_cases hc : (((activeOrdersIn s.orders mid).map Order.orderId).contains
          x0.orderId) = true
      · rw [if_pos hc]
      · rw [if_neg hc] at hxid ⊢
        cases hs0 : x0.status with
        | canceled => rfl
        | active =>
          exfalso
          apply hc
          apply List.elem_eq_true_of_mem
          apply List.mem_map_of_mem
          unfold activeOrdersIn
          refine List.mem_filter.mpr ⟨hx0, ?_⟩
          rw [hs0]
          simp [hxid]
    · rw [refundCascade_ledger]
    · intro v
      rw [refundCascade_balOf]
  · intro hstat
    have hneg : ¬(mealStatusOf s mid = some .published ∨
        mealStatusOf s mid = some .locked) := by
      intro hc
      rcases hc with hc | hc
      · rw [hst] at hc
        exact hstat (Or.inl (Option.some.inj hc))
      · rw [hst] at hc
        exact hstat (Or.inr (Option.some.inj hc))
    unfold cancelMeal
    rw [if_neg hneg]

/-- Witness for C3 at the spec's Scenario C: a published meal with three
active orders of 1000, 1500 and 2000 cents held by users 1, 2 and 3; the
cascade cancels all three, appends exactly three refund entries and credits
each user by exactly their order's amount. -/
theorem cancelMeal_spec_witness :
    (( exMealPub.status = .published ∨ exMealPub.status = .locked) →
      (cancelMeal exStateThreeOrders 1).2 = .ok .canceled ∧
      (∀ x ∈ (cancelMeal exStateThreeOrders 1).1.meals,
        x.mealId = 1 → x.status = .canceled) ∧
      (∀ x ∈ (cancelMeal exStateThreeOrders 1).1.orders,
        x.mealId = 1 → x.status = .canceled) ∧
      (cancelMeal exStateThreeOrders 1).1.ledger =
        exStateThreeOrders.ledger ++
          (activeOrdersIn exStateThreeOrders.orders 1).map refundEntry ∧
      (∀ v, balOf (cancelMeal exStateThreeOrders 1).1.users v =
        (balOf exStateThreeOrders.users v).map
          (fun b => b + refundTotal v (activeOrdersIn exStateThreeOrders.orders 1)))) ∧
    (¬(exMealPub.status = .published ∨ exMealPub.status = .locked) →
      cancelMeal exStateThreeOrders 1 = (exStateThreeOrders, .error .mealStateInvalid)) :=
  cancelMeal_spec exStateThreeOrders 1 exMealPub (by decide)

theorem find?_reverse_of_unique {α : Type} {l : List α} {p : α → Bool}
    (hu : ∀ a ∈ l, ∀ b ∈ l, p a = true → p b = true → a = b) :
    l.reverse.find? p = l.find? p := by
  cases hf : l.find? p with
  | none =>
    rw [List.find?_eq_none] at hf ⊢
    intro x hx
    exact hf x (List.mem_reverse.mp hx)
  | some a =>
    have hpa : p a = true := List.find?_some hf
    have hma : a ∈ l := List.mem_of_find?_eq_some hf
    cases hg : l.reverse.find? p with
    | none =>
      rw [List.find?_eq_none] at hg
      exact absurd hpa (hg a (List.mem_reverse.mpr hma))
    | some b =>
      have hpb : p b = true := List.find?_some hg
      have hmb : b ∈ l := List.mem_reverse.mp (List.mem_of_find?_eq_some hg)
      rw [hu b hmb a hma hpb hpa]

theorem optionsTotal_eq_spec (opts : List MealOption) (sel : List String)
    (hne : ∀ o ∈ opts, o.id ≠ "")
    (hnd : (opts.map MealOption.id).Nodup) :
    optionsTotal opts sel = specOptionsTotal opts sel := by
  unfold optionsTotal specOptionsTotal
  congr 1
  apply List.map_congr_left
  intro sid hsid
  unfold optionLookup
  have hfil : opts.filter (fun o => o.id != "") = opts := by
    rw [List.filter_eq_self]
    intro a ha
    simpa using hne a ha
  rw [hfil]
  have hu : ∀ a ∈ opts, ∀ b ∈ opts,
      (fun o : MealOption => o.id == sid) a = true →
      (fun o : MealOption => o.id == sid) b = true → a = b := by
    intro a ha b hb hpa hpb
    have hab : a.id = b.id := by
      have h1 : a.id = sid := by simpa using hpa
      have h2 : b.id = sid := by simpa using hpb
      rw [h1, h2]
    exact List.inj_on_of_nodup_map hnd ha hb hab
  rw [find?_reverse_of_unique hu]
  cases opts.find? (fun o => o.id == sid) <;> rfl

/-- C8 (confirmed): when `submit_order` succeeds, the inserted order row
stores `amount_cents` equal to the meal's base price times the quantity plus
the sum of the price deltas of the selected options as resolved against the
meal's option list (well-formed option lists: ids nonempty and distinct). -/
theorem submit_amount_formula (s : DB) (uid mid : Nat) (qty : Int)
    (sel : List String) (s1 : DB) (r : CreateOrderResult) (meal : Meal)
    (hmeal : findMeal s mid = some meal)
    (hne : ∀ o ∈ meal.options, o.id ≠ "")
    (hnd : (meal.options.map MealOption.id).Nodup)
    (hsub : submitOrder s uid mid qty sel = (s1, .ok r)) :
    r.amountCents = meal.basePriceCents * qty + specOptionsTotal meal.options sel ∧
    ∃ o : Order, s1.orders = (getOrCreateUser s uid).orders ++ [o] ∧
      o.amountCents = meal.basePriceCents * qty + specOptionsTotal meal.options sel ∧
      o.userId = uid ∧ o.mealId = mid ∧ o.qty = qty ∧ o.status = .active := by
  obtain ⟨hq1, meal2, hmeal2, hpub, hdup, hcapb, hrid, hramt, hs1⟩ := submitOrder_ok_elim hsub
  have hmeq : meal2 = meal := by
    have : findMeal (getOrCreateUser s uid) mid = findMeal s mid := by
      unfold findMeal
      rw [getOrCreateUser_meals]
    rw [this, hmeal] at hmeal2
    exact (Option.some.inj hmeal2).symm
  rw [hmeq] at hramt hs1
  have hform : calcOrderAmount meal qty sel =
      meal.basePriceCents * qty + specOptionsTotal meal.options sel := by
    unfold calcOrderAmount
    rw [optionsTotal_eq_spec meal.options sel hne hnd]
  constructor
  · rw [hramt, hform]
  · refine ⟨newOrderRow (getOrCreateUser s uid) uid mid qty sel
      (calcOrderAmount meal qty sel), ?_, ?_, rfl, rfl, rfl, rfl⟩
    · rw [hs1]
      rfl
    · show calcOrderAmount meal qty sel =
        meal.basePriceCents * qty + specOptionsTotal meal.options sel
      exact hform

/-- Witness for C8: user 1 orders the optioned meal selecting "egg"
(delta +300): the stored and returned amount is 2000 × 1 + 300 = 2300. -/
theorem submit_amount_formula_witness :
    (({ orderId := 0, amountCents := 2300, balanceCents := -2300 } :
        CreateOrderResult).amountCents =
      exMealOpts.basePriceCents * 1 + specOptionsTotal exMealOpts.options ["egg"]) ∧
    ∃ o : Order, (submitOrder exStateOpt 1 1 1 ["egg"]).1.orders =
        (getOrCreateUser exStateOpt 1).orders ++ [o] ∧
      o.amountCents = exMealOpts.basePriceCents * 1 +
        specOptionsTotal exMealOpts.options ["egg"] ∧
      o.userId = 1 ∧ o.mealId = 1 ∧ o.qty = 1 ∧ o.status = .active :=
  submit_amount_formula exStateOpt 1 1 1 ["egg"]
    (submitOrder exStateOpt 1 1 1 ["egg"]).1
    { orderId := 0, amountCents := 2300, balanceCents := -2300 }
    exMealOpts (by decide) (by decide) (by decide) (by decide)

/-- C9 (confirmed): a successful `submit_order` immediately followed by
`cancel_order` of the created order succeeds and restores the user's
cached balance to exactly its pre-submit value. -/
theorem submit_cancel_roundtrip (s : DB) (uid mid : Nat) (qty : Int)
    (sel : List String) (s1 : DB) (r : CreateOrderResult)
    (hids : orderIdsBounded s)
    (hu : (findUser s uid).isSome)
    (hsub : submitOrder s uid mid qty sel = (s1, .ok r)) :
    (∃ r2, (cancelOrder s1 r.orderId).2 = .ok r2) ∧
    balOf (cancelOrder s1 r.orderId).1.users uid = balOf s.users uid := by
  obtain ⟨hq1, meal, hmeal, hpub, hdup, hcapb, hrid, hramt, hs1⟩ := submitOrder_ok_elim hsub
  rw [getOrCreateUser_of_isSome hu] at hmeal hrid hs1
  subst hs1
  have hfind : findActiveOrder
      (admitTransaction s uid mid qty sel (calcOrderAmount meal qty sel)) r.orderId =
      some (newOrderRow s uid mid qty sel (calcOrderAmount meal qty sel)) := by
    unfold findActiveOrder admitTransaction
    dsimp only
    rw [List.find?_append]
    have h1 : s.orders.find?
        (fun o => o.orderId == r.orderId && o.status == OrderStatus.active) = none := by
      rw [List.find?_eq_none]
      intro x hx hpx
      have hxid : x.orderId = r.orderId := by
        have := (Bool.and_eq_true _ _).mp hpx
        simpa using this.1
      have hlt := hids x hx
      rw [hrid] at hxid
      omega
    rw [h1, Option.none_or, hrid]
    simp [List.find?, newOrderRow]
  have hpubstat : mealStatusOf
      (admitTransaction s uid mid qty sel (calcOrderAmount meal qty sel)) mid =
      some .published := by
    show (findMeal s mid).map Meal.status = some .published
    rw [hmeal]
    simp [hpub]
  have hco : cancelOrder
      (admitTransaction s uid mid qty sel (calcOrderAmount meal qty sel)) r.orderId =
      (refundOrder (admitTransaction s uid mid qty sel (calcOrderAmount meal qty sel))
        r.orderId uid (calcOrderAmount meal qty sel),
       .ok { orderId := r.orderId,
             balanceCents := getUserBalance
               (refundOrder (admitTransaction s uid mid qty sel
                 (calcOrderAmount meal qty sel)) r.orderId uid
                 (calcOrderAmount meal qty sel)) uid }) := by
    unfold cancelOrder
    rw [hfind]
    unfold newOrderRow
    dsimp only
    rw [if_neg (not_not_intro hpubstat)]
  rw [hco]
  refine ⟨⟨_, rfl⟩, ?_⟩
  show balOf (creditUser (creditUser s.users uid (-(calcOrderAmount meal qty sel))) uid
    (calcOrderAmount meal qty sel)) uid = balOf s.users uid
  rw [balOf_creditUser, balOf_creditUser, Option.map_map]
  cases balOf s.users uid with
  | none => rfl
  | some b =>
    simp

/-- Witness for C9: user 1 (balance 0) submits on meal 1 (2000 cents,
balance −2000) and then cancels order 0; the cancel succeeds and the balance
is exactly 0 again. -/
theorem submit_cancel_roundtrip_witness :
    (∃ r2, (cancelOrder exStateOrdered 0).2 = .ok r2) ∧
    balOf (cancelOrder exStateOrdered 0).1.users 1 = balOf exState0.users 1 :=
  submit_cancel_roundtrip exState0 1 1 1 [] exStateOrdered
    { orderId := 0, amountCents := 2000, balanceCents := -2000 }
    (by unfold orderIdsBounded; decide) (by decide) (by decide)

/-- C5 (confirmed): a `submit_order` for a (user, meal) pair that already
has an active order fails with `DuplicateOrder` and returns the state
unchanged (no change to orders, ledger, or balances), and the
at-most-one-active-order-per-(user, meal) invariant is preserved by every
operation of the core. -/
theorem duplicate_order_prevention (s : DB) (uid mid oid : Nat) (qty amt : Int)
    (sel : List String) (req : MealReq) (meal : Meal)
    (h : atMostOneActive s) :
    ((findUser s uid).isSome → findMeal s mid = some meal → meal.status = .published →
      hasActiveOrder s uid mid = true → qty = 1 →
      submitOrder s uid mid qty sel = (s, .error .duplicateOrder)) ∧
    atMostOneActive (submitOrder s uid mid qty sel).1 ∧
    atMostOneActive (updateOrder s uid oid qty sel).1 ∧
    atMostOneActive (cancelOrder s oid).1 ∧
    atMostOneActive (cancelMeal s mid).1 ∧
    atMostOneActive (repostMeal s mid req).1 ∧
    atMostOneActive (lockMeal s mid).1 ∧
    atMostOneActive (unlockMeal s mid).1 ∧
    atMostOneActive (completeMeal s mid).1 ∧
    atMostOneActive (rechargeUser s uid amt).1 ∧
    atMostOneActive (createMeal s req).1 ∧
    atMostOneActive (updateMealPatch s mid req).1 :=
  ⟨fun hu hm hst hdup hq => submitOrder_duplicate s uid mid qty sel meal hu hm hst hdup hq,
   atMostOneActive_submit s uid mid qty sel h,
   atMostOneActive_update s uid oid qty sel h,
   atMostOneActive_cancelOrder s oid h,
   atMostOneActive_cancelMeal s mid h,
   atMostOneActive_repostMeal s mid req h,
   atMostOneActive_lockMeal s mid h,
   atMostOneActive_unlockMeal s mid h,
   atMostOneActive_completeMeal s mid h,
   atMostOneActive_recharge s uid amt h,
   atMostOneActive_createMeal s req h,
   atMostOneActive_patch s mid req h⟩

/-- Witness for C5: in the concrete two-order state, user 1 already holds
active order 0 on meal 1, so a second submit fails with `DuplicateOrder`
and the invariant is preserved across all operations. -/
theorem duplicate_order_prevention_witness :
    ((findUser exStateTwoOrders 1).isSome →
      findMeal exStateTwoOrders 1 = some { exMealPub with capacity := 2 } →
      ({ exMealPub with capacity := 2 } : Meal).status = .published →
      hasActiveOrder exStateTwoOrders 1 1 = true → (1 : Int) = 1 →
      submitOrder exStateTwoOrders 1 1 1 [] = (exStateTwoOrders, .error .duplicateOrder)) ∧
    atMostOneActive (submitOrder exStateTwoOrders 1 1 1 []).1 ∧
    atMostOneActive (updateOrder exStateTwoOrders 1 0 1 []).1 ∧
    atMostOneActive (cancelOrder exStateTwoOrders 0).1 ∧
    atMostOneActive (cancelMeal exStateTwoOrders 1).1 ∧
    atMostOneActive (repostMeal exStateTwoOrders 1 exShrinkReq).1 ∧
    atMostOneActive (lockMeal exStateTwoOrders 1).1 ∧
    atMostOneActive (unlockMeal exStateTwoOrders 1).1 ∧
    atMostOneActive (completeMeal exStateTwoOrders 1).1 ∧
    atMostOneActive (rechargeUser exStateTwoOrders 1 100).1 ∧
    atMostOneActive (createMeal exStateTwoOrders exShrinkReq).1 ∧
    atMostOneActive (updateMealPatch exStateTwoOrders 1 exShrinkReq).1 :=
  duplicate_order_prevention exStateTwoOrders 1 1 0 1 100 [] exShrinkReq
    { exMealPub with capacity := 2 } (by unfold atMostOneActive; decide)

/-- C10 (confirmed): an order submission with quantity ≠ 1 fails with the
invalid-quantity error before any state change (the check is the first
statement of `create_order`, so even the lazy user insert has not run), and
every operation of the core preserves the property that every stored order
row has quantity exactly 1 — a restriction the spec's `submit_order`
signature does not state. -/
theorem quantity_restricted_to_one (s : DB) (uid mid oid : Nat) (qty amt : Int)
    (sel : List String) (req : MealReq)
    (h : allOrderQtyOne s) :
    (qty ≠ 1 → submitOrder s uid mid qty sel = (s, .error .invalidQuantity)) ∧
    allOrderQtyOne (submitOrder s uid mid qty sel).1 ∧
    allOrderQtyOne (updateOrder s uid oid qty sel).1 ∧
    allOrderQtyOne (cancelOrder s oid).1 ∧
    allOrderQtyOne (cancelMeal s mid).1 ∧
    allOrderQtyOne (repostMeal s mid req).1 ∧
    allOrderQtyOne (lockMeal s mid).1 ∧
    allOrderQtyOne (unlockMeal s mid).1 ∧
    allOrderQtyOne (completeMeal s mid).1 ∧
    allOrderQtyOne (rechargeUser s uid amt).1 ∧
    allOrderQtyOne (createMeal s req).1 :=
  ⟨fun hq => submitOrder_invalidQuantity s uid mid qty sel hq,
   allQtyOne_submit s uid mid qty sel h,
   allQtyOne_update s uid oid qty sel h,
   allQtyOne_cancelOrder s oid h,
   allQtyOne_cancelMeal s mid h,
   allQtyOne_repostMeal s mid req h,
   allQtyOne_lockMeal s mid h,
   allQtyOne_unlockMeal s mid h,
   h,
   by unfold rechargeUser; split <;> exact h,
   by unfold createMeal; split
      · split <;> exact h
      · exact h⟩

/-- Witness for C10: in the concrete state, a submit with quantity 2 fails
with the invalid-quantity error and leaves the state untouched, and every
operation preserves the all-quantities-are-1 property. -/
theorem quantity_restricted_to_one_witness :
    ((2 : Int) ≠ 1 → submitOrder exStateTwoOrders 3 1 2 [] =
      (exStateTwoOrders, .error .invalidQuantity)) ∧
    allOrderQtyOne (submitOrder exStateTwoOrders 3 1 2 []).1 ∧
    allOrderQtyOne (updateOrder exStateTwoOrders 1 0 2 []).1 ∧
    allOrderQtyOne (cancelOrder exStateTwoOrders 0).1 ∧
    allOrderQtyOne (cancelMeal exStateTwoOrders 1).1 ∧
    allOrderQtyOne (repostMeal exStateTwoOrders 1 exShrinkReq).1 ∧
    allOrderQtyOne (lockMeal exStateTwoOrders 1).1 ∧
    allOrderQtyOne (unlockMeal exStateTwoOrders 1).1 ∧
    allOrderQtyOne (completeMeal exStateTwoOrders 1).1 ∧
    allOrderQtyOne (rechargeUser exStateTwoOrders 3 100).1 ∧
    allOrderQtyOne (createMeal exStateTwoOrders exShrinkReq).1 :=
  quantity_restricted_to_one exStateTwoOrders 3 1 0 2 100 [] exShrinkReq
    (by unfold allOrderQtyOne; decide)

/-- C1 (code bug, evaluated at the failing input): user 1 with balance 0
submits an order on
published meal 1 (base price 2000).  The submit succeeds, the cached
balance (−2000) equals the signed sum of the user's ledger entries exactly
as the spec's sign convention demands, and yet
`_check_user_balance_consistency` — which compares the balance against the
raw `SUM(amount_cents)` with debits counted positively — flags this
perfectly consistent user with a `balance_mismatch` issue. -/
theorem submit_keeps_signed_sum_but_checker_flags_user :
    (submitOrder exState0 1 1 1 []).2 =
      .ok { orderId := 0, amountCents := 2000, balanceCents := -2000 } ∧
    balOf (submitOrder exState0 1 1 1 []).1.users 1 =
      some (signedLedgerSum (submitOrder exState0 1 1 1 []).1 1) ∧
    rawLedgerSum (submitOrder exState0 1 1 1 []).1 1 = 2000 ∧
    balanceMismatchUsers (submitOrder exState0 1 1 1 []).1 =
      [{ userId := 1, balanceCents := -2000 }] := by
  decide

theorem find?_strengthen_active {l : List Order} {oid : Nat} {o : Order}
    (hfind : l.find? (fun x => x.orderId == oid) = some o)
    (hact : (o.status == OrderStatus.active) = true) :
    l.find? (fun x => x.orderId == oid && x.status == OrderStatus.active) = some o := by
  induction l with
  | nil => simp at hfind
  | cons a t ih =>
    simp only [List.find?] at hfind ⊢
    cases hp : (a.orderId == oid) with
    | false =>
      rw [hp] at hfind
      exact ih hfind
    | true =>
      rw [hp] at hfind
      have hao : a = o := Option.some.inj hfind
      subst hao
      rw [hact]
      rfl

theorem markOrderCanceled_hits {l : List Order} (oid : Nat) :
    ∀ x ∈ markOrderCanceled l oid, x.orderId = oid → x.status = .canceled := by
  intro x hx hid
  unfold markOrderCanceled at hx
  obtain ⟨o0, ho0, rfl⟩ := List.mem_map.mp hx
  by_cases hc : (o0.orderId == oid) = true
  · rw [if_pos hc]
  · rw [if_neg hc] at hid ⊢
    exact absurd (by simp [hid]) hc

/-- C2 (amended theorem): `update_order` runs as two separately committed
halves.  When the order exists and is active and its meal is published but
the requested quantity is invalid (≠ 1), the cancel half still commits: the
call returns the invalid-quantity error with the post-cancel state, in which
the original order is canceled, the ledger has grown by exactly the refund
entry, and the owner's balance has been credited by the old amount. -/
theorem updateOrder_two_halves (s : DB) (uid oid : Nat) (qty : Int)
    (sel : List String) (o : Order)
    (hfind : s.orders.find? (fun x => x.orderId == oid) = some o)
    (hact : o.status = .active)
    (hpub : mealStatusOf s o.mealId = some .published)
    (hq : qty ≠ 1) :
    updateOrder s uid oid qty sel =
      (refundOrder s oid o.userId o.amountCents, .error .invalidQuantity) ∧
    (∀ x ∈ (refundOrder s oid o.userId o.amountCents).orders,
      x.orderId = oid → x.status = .canceled) ∧
    (refundOrder s oid o.userId o.amountCents).ledger =
      s.ledger ++ [{ userId := o.userId, type := .refund,
                     amountCents := o.amountCents, refOrderId := some oid }] ∧
    balOf (refundOrder s oid o.userId o.amountCents).users o.userId =
      (balOf s.users o.userId).map (fun b => b + o.amountCents) := by
  refine ⟨?_, ?_, rfl, ?_⟩
  · unfold updateOrder
    rw [hfind]
    dsimp only
    rw [if_neg (by rw [hpub]; intro hc; exact absurd rfl hc)]
    have hint : cancelOrderInternal s oid =
        (refundOrder s oid o.userId o.amountCents, .ok ()) := by
      unfold cancelOrderInternal findActiveOrder
      rw [find?_strengthen_active hfind (by rw [hact]; rfl)]
    rw [hint]
    exact submitOrder_invalidQuantity _ uid o.mealId qty sel hq
  · exact markOrderCanceled_hits oid
  · have hb := balOf_creditUser s.users o.userId o.userId o.amountCents
    have : (refundOrder s oid o.userId o.amountCents).users
        = creditUser s.users o.userId o.amountCents := rfl
    rw [this, hb]
    cases balOf s.users o.userId <;> simp

/-- Witness for C2's amended theorem at the concrete ordered state: user 1
modifies order 0 with quantity 2; the call errors yet order 0 ends canceled,
the refund entry is appended and the balance is restored to 0. -/
theorem updateOrder_two_halves_witness :
    (updateOrder exStateOrdered 1 0 2 [] =
      (refundOrder exStateOrdered 0 1 2000, .error .invalidQuantity) ∧
    (∀ x ∈ (refundOrder exStateOrdered 0 1 2000).orders,
      x.orderId = 0 → x.status = .canceled) ∧
    (refundOrder exStateOrdered 0 1 2000).ledger =
      exStateOrdered.ledger ++ [{ userId := 1, type := .refund,
                                  amountCents := 2000, refOrderId := some 0 }] ∧
    balOf (refundOrder exStateOrdered 0 1 2000).users 1 =
      (balOf exStateOrdered.users 1).map (fun b => b + 2000)) :=
  updateOrder_two_halves exStateOrdered 1 0 2 []
    { orderId := 0, userId := 1, mealId := 1, qty := 1, selectedOptions := [],
      amountCents := 2000, status := .active, lockedAt := false }
    (by decide) rfl (by decide) (by decide)

/-- C2 (counterexample): modifying order 0 (active, 2000 cents, meal
published) with the invalid quantity 2 makes the second half of
`update_order` fail — but the first half has already committed: the original
order is canceled, a refund ledger row was appended and the balance was
credited.  Nothing is rolled back, refuting the claimed atomicity. -/
theorem updateOrder_failure_keeps_committed_refund :
    (updateOrder exStateOrdered 1 0 2 []).2 = .error .invalidQuantity ∧
    exStateOrdered.orders =
      [{ orderId := 0, userId := 1, mealId := 1, qty := 1, selectedOptions := [],
         amountCents := 2000, status := .active, lockedAt := false }] ∧
    (updateOrder exStateOrdered 1 0 2 []).1.orders =
      [{ orderId := 0, userId := 1, mealId := 1, qty := 1, selectedOptions := [],
         amountCents := 2000, status := .canceled, lockedAt := false }] ∧
    (updateOrder exStateOrdered 1 0 2 []).1.ledger =
      exStateOrdered.ledger ++
        [{ userId := 1, type := .refund, amountCents := 2000, refOrderId := some 0 }] ∧
    balOf exStateOrdered.users 1 = some (-2000) ∧
    balOf (updateOrder exStateOrdered 1 0 2 []).1.users 1 = some 0 := by
  decide

/-- C6 (amended theorem): for a meal in a terminal state (`completed` or
`canceled`): `lock`, `unlock`, `cancel` and `repost` fail with an error and
return the state unchanged, and `_validate_status_transition` rejects every
transition out of the terminal state; but `complete_meal` returns success
("completed") with the state unchanged instead of raising an error, and
`create_meal` for the same date and slot errors only when the existing meal
is not canceled — when it is canceled, creation succeeds and overwrites the
meal back to `published` with the new fields. -/
theorem terminal_meal_transitions (s : DB) (mid : Nat) (m : Meal) (req : MealReq)
    (hm : findMeal s mid = some m)
    (hterm : m.status = .completed ∨ m.status = .canceled)
    (hnd : mealIdsNodup s) :
    lockMeal s mid = (s, .error .mealStateInvalid) ∧
    unlockMeal s mid = (s, .error .mealStateInvalid) ∧
    cancelMeal s mid = (s, .error .mealStateInvalid) ∧
    repostMeal s mid req = (s, .error .mealStateInvalid) ∧
    completeMeal s mid = (s, .ok .completed) ∧
    (∀ st, validateStatusTransition m.status st = false) ∧
    (s.meals.find? (fun x => x.date == req.date && x.slot == req.slot) = some m →
      (m.status = .completed → createMeal s req = (s, .error .mealExists)) ∧
      (m.status = .canceled → (createMeal s req).2 = .ok m.mealId ∧
        ∀ x ∈ (createMeal s req).1.meals, x.mealId = m.mealId →
          x = { updateMealFields m req with status := .published })) := by
  have hst : mealStatusOf s mid = some m.status := by
    unfold mealStatusOf
    rw [hm]
    rfl
  have hnp : mealStatusOf s mid ≠ some .published := by
    rw [hst]
    rcases hterm with h | h <;> rw [h] <;> intro hc <;> exact absurd (Option.some.inj hc) (by decide)
  have hnl : mealStatusOf s mid ≠ some .locked := by
    rw [hst]
    rcases hterm with h | h <;> rw [h] <;> intro hc <;> exact absurd (Option.some.inj hc) (by decide)
  have hmem : m ∈ s.meals := List.mem_of_find?_eq_some hm
  have hmid : m.mealId = mid := by simpa using List.find?_some hm
  refine ⟨?_, ?_, ?_, ?_, ?_, ?_, ?_⟩
  · unfold lockMeal
    rw [if_neg hnp]
  · unfold unlockMeal
    rw [if_neg hnl]
  · unfold cancelMeal
    rw [if_neg (by intro hc; rcases hc with hc | hc; exact hnp hc; exact hnl hc)]
  · unfold repostMeal
    rw [if_neg hnp]
  · unfold completeMeal
    have hmap : s.meals.map (fun x =>
        if x.mealId == mid && x.status == MealStatus.locked
        then { x with status := MealStatus.completed } else x) = s.meals := by
      have hcong : ∀ x ∈ s.meals, (fun x : Meal =>
          if x.mealId == mid && x.status == MealStatus.locked
          then { x with status := MealStatus.completed } else x) x = x := by
        intro x hx
        dsimp only
        by_cases hc : (x.mealId == mid) = true
        · have hxm : x = m := List.inj_on_of_nodup_map hnd hx hmem
            (by rw [hmid]; simpa using hc)
          rw [if_neg ?_]
          rw [hxm]
          rcases hterm with h | h <;> rw [h] <;> simp
        · rw [if_neg (by simp [hc])]
      rw [List.map_congr_left hcong, List.map_id']
    rw [hmap]
  · intro st
    rcases hterm with h | h <;> rw [h] <;> rfl
  · intro hfindds
    constructor
    · intro hcomp
      unfold createMeal
      rw [hfindds]
      dsimp only
      rw [if_neg (by rw [hcomp]; decide)]
    · intro hcanc
      unfold createMeal
      rw [hfindds]
      dsimp only
      rw [if_pos hcanc]
      refine ⟨rfl, ?_⟩
      intro x hx hxid
      dsimp only at hx
      obtain ⟨x0, hx0, rfl⟩ := List.mem_map.mp hx
      by_cases hc : (x0.mealId == m.mealId) = true
      · rw [if_pos hc] at hxid ⊢
        have hx0m : x0 = m := List.inj_on_of_nodup_map hnd hx0 hmem (by simpa using hc)
        rw [hx0m]
      · rw [if_neg hc] at hxid ⊢
        exact absurd (by simp [hxid]) hc

/-- Witness for C6's amended theorem at the concrete canceled meal:
lock/unlock/cancel/repost all fail, `complete_meal` silently reports
success, every `_validate_status_transition` out of `canceled` is rejected,
and re-creating the meal for the same date and slot republishes it. -/
theorem terminal_meal_transitions_witness :
    lockMeal exStateCanceledMeal 1 = (exStateCanceledMeal, .error .mealStateInvalid) ∧
    unlockMeal exStateCanceledMeal 1 = (exStateCanceledMeal, .error .mealStateInvalid) ∧
    cancelMeal exStateCanceledMeal 1 = (exStateCanceledMeal, .error .mealStateInvalid) ∧
    repostMeal exStateCanceledMeal 1 exRepostReq =
      (exStateCanceledMeal, .error .mealStateInvalid) ∧
    completeMeal exStateCanceledMeal 1 = (exStateCanceledMeal, .ok .completed) ∧
    (∀ st, validateStatusTransition ({ exMealPub with status := .canceled } : Meal).status st
      = false) ∧
    (exStateCanceledMeal.meals.find? (fun x =>
        x.date == exRepostReq.date && x.slot == exRepostReq.slot) =
      some { exMealPub with status := .canceled } →
      (({ exMealPub with status := .canceled } : Meal).status = .completed →
        createMeal exStateCanceledMeal exRepostReq =
          (exStateCanceledMeal, .error .mealExists)) ∧
      (({ exMealPub with status := .canceled } : Meal).status = .canceled →
        (createMeal exStateCanceledMeal exRepostReq).2 =
          .ok ({ exMealPub with status := .canceled } : Meal).mealId ∧
        ∀ x ∈ (createMeal exStateCanceledMeal exRepostReq).1.meals,
          x.mealId = ({ exMealPub with status := .canceled } : Meal).mealId →
          x = { updateMealFields { exMealPub with status := .canceled } exRepostReq with
                status := .published })) :=
  terminal_meal_transitions exStateCanceledMeal 1 { exMealPub with status := .canceled }
    exRepostReq (by decide) (Or.inr rfl) (by unfold mealIdsNodup; decide)

/-- C6 (counterexample): on a meal in the terminal `canceled` state,
`complete_meal` returns success (status "completed") without raising any
error, and `create_meal` for the same date and slot succeeds and overwrites
the canceled meal back to `published` with the new terms — two lifecycle
attempts on a terminal meal that do not fail with a terminal-state error. -/
theorem terminal_meal_not_protected :
    completeMeal exStateCanceledMeal 1 = (exStateCanceledMeal, .ok .completed) ∧
    (createMeal exStateCanceledMeal exRepostReq).2 = .ok 1 ∧
    (createMeal exStateCanceledMeal exRepostReq).1.meals =
      [{ mealId := 1, date := 20250101, slot := .lunch, basePriceCents := 3000,
         options := [], capacity := 5, perUserLimit := 1, status := .published }] := by
  decide

/-- C7 (amended theorem): when every order row with the requested id is
already canceled, `cancel_order` fails with `ORDER_NOT_FOUND` (the lookup
selects only active rows) and the state — in particular the ledger and every
user's balance — is returned unchanged. -/
theorem cancel_canceled_order_unchanged (s : DB) (oid : Nat)
    (h : ∀ o ∈ s.orders, o.orderId = oid → o.status = .canceled) :
    cancelOrder s oid = (s, .error .orderNotFound) ∧
    (cancelOrder s oid).1.ledger = s.ledger ∧
    (∀ v, balOf (cancelOrder s oid).1.users v = balOf s.users v) := by
  have hfa : findActiveOrder s oid = none := by
    unfold findActiveOrder
    rw [List.find?_eq_none]
    intro x hx hpx
    have hid : x.orderId = oid := by
      have := (Bool.and_eq_true _ _).mp hpx
      simpa using this.1
    have hact : x.status = OrderStatus.active := by
      have := (Bool.and_eq_true _ _).mp hpx
      simpa using this.2
    rw [h x hx hid] at hact
    exact absurd hact (by decide)
  have heq : cancelOrder s oid = (s, .error .orderNotFound) := by
    unfold cancelOrder
    rw [hfa]
  exact ⟨heq, by rw [heq], fun v => by rw [heq]⟩

/-- Witness for C7's amended theorem at the concrete state whose only
order 0 is canceled. -/
theorem cancel_canceled_order_unchanged_witness :
    cancelOrder exStateCanceledOrder 0 = (exStateCanceledOrder, .error .orderNotFound) ∧
    (cancelOrder exStateCanceledOrder 0).1.ledger = exStateCanceledOrder.ledger ∧
    (∀ v, balOf (cancelOrder exStateCanceledOrder 0).1.users v =
      balOf exStateCanceledOrder.users v) :=
  cancel_canceled_order_unchanged exStateCanceledOrder 0 (by decide)

/-- C7 (counterexample): canceling the already-canceled order 0 fails with
`ORDER_NOT_FOUND`, not `ORDER_NOT_ACTIVE` — the lookup selects only rows
with `status='active'`, so a canceled order is indistinguishable from a
missing one.  The state is returned untouched. -/
theorem cancel_canceled_order_gives_orderNotFound :
    cancelOrder exStateCanceledOrder 0 = (exStateCanceledOrder, .error .orderNotFound) ∧
    OpError.orderNotFound ≠ OpError.orderNotActive := by
  decide

/-- C4 (counterexample): with meal 1 at capacity 2 exactly filled by two
active orders, the meal-edit endpoint (`PATCH /meals/{id}`) happily lowers
the capacity to 1 and reports success — after this completed operation the
active quantity sum 2 exceeds the capacity 1, so the capacity bound is not
an invariant of every operation. -/
theorem patch_can_lower_capacity_below_active_sum :
    (updateMealPatch exStateTwoOrders 1 exShrinkReq).2 = .ok 1 ∧
    activeQtySum (updateMealPatch exStateTwoOrders 1 exShrinkReq).1 1 = 2 ∧
    findMeal (updateMealPatch exStateTwoOrders 1 exShrinkReq).1 1 =
      some { mealId := 1, date := 20250101, slot := .lunch, basePriceCents := 2000,
             options := [], capacity := 1, perUserLimit := 1, status := .published } ∧
    ¬((2 : Int) ≤ 1) := by
  decide

/-- C4 (amended): the capacity bound `sum(active qty) ≤ capacity` is
preserved by every order-mutating and lifecycle operation — submit, modify,
cancel, meal cancel, lock, unlock, complete, recharge, and (when the
requested capacity is nonnegative) repost and meal creation — and a
`submit_order` that would push the active sum above capacity fails with
`CapacityExceeded`, returning the state unchanged.  (The meal-edit endpoint
`updateMealPatch` is excluded: the counterexample shows it can lower the
capacity below the active sum.) -/
theorem capacity_invariant_per_operation (s : DB) (uid mid oid : Nat) (qty amt : Int)
    (sel : List String) (req : MealReq) (meal : Meal)
    (hcap : capacityInvariant s) (hnd : mealIdsNodup s) (hqn : qtysNonneg s) :
    capacityInvariant (submitOrder s uid mid qty sel).1 ∧
    capacityInvariant (updateOrder s uid oid qty sel).1 ∧
    capacityInvariant (cancelOrder s oid).1 ∧
    capacityInvariant (cancelMeal s mid).1 ∧
    capacityInvariant (lockMeal s mid).1 ∧
    capacityInvariant (unlockMeal s mid).1 ∧
    capacityInvariant (completeMeal s mid).1 ∧
    capacityInvariant (rechargeUser s uid amt).1 ∧
    (0 ≤ req.capacity → capacityInvariant (repostMeal s mid req).1) ∧
    (0 ≤ req.capacity → canceledMealsHaveNoActive s →
      activeQtySum s s.nextMealId = 0 → capacityInvariant (createMeal s req).1) ∧
    ((findUser s uid).isSome → findMeal s mid = some meal → meal.status = .published →
      hasActiveOrder s uid mid = false → qty = 1 →
      activeQtySum s mid + qty > meal.capacity →
      submitOrder s uid mid qty sel = (s, .error .capacityExceeded)) := by
  refine ⟨capacityInvariant_submit s uid mid qty sel hcap hnd,
    capacityInvariant_update s uid oid qty sel hcap hnd hqn,
    capacityInvariant_cancelOrder s oid hcap hqn,
    capacityInvariant_cancelMeal s mid hcap hqn,
    capacityInvariant_lockMeal s mid hcap,
    capacityInvariant_unlockMeal s mid hcap,
    capacityInvariant_completeMeal s mid hcap,
    capacityInvariant_recharge s uid amt hcap,
    fun hrc => capacityInvariant_repostMeal s mid req hcap hqn hrc,
    fun hrc hclean hfresh => capacityInvariant_createMeal s req hcap hrc hclean hfresh,
    fun hu hm hst hdup hq hover =>
      submitOrder_capacityExceeded s uid mid qty sel meal hu hm hst hdup hq hover⟩

/-- Witness for C4's amended theorem: all hypotheses hold in the concrete
full-meal state, and in particular user 3's submit on the full meal fails
with `CapacityExceeded` leaving the state untouched. -/
theorem capacity_invariant_per_operation_witness :
    capacityInvariant (submitOrder exStateTwoOrders 3 1 1 []).1 ∧
    capacityInvariant (updateOrder exStateTwoOrders 3 0 1 []).1 ∧
    capacityInvariant (cancelOrder exStateTwoOrders 0).1 ∧
    capacityInvariant (cancelMeal exStateTwoOrders 1).1 ∧
    capacityInvariant (lockMeal exStateTwoOrders 1).1 ∧
    capacityInvariant (unlockMeal exStateTwoOrders 1).1 ∧
    capacityInvariant (completeMeal exStateTwoOrders 1).1 ∧
    capacityInvariant (rechargeUser exStateTwoOrders 3 100).1 ∧
    (0 ≤ exShrinkReq.capacity → capacityInvariant (repostMeal exStateTwoOrders 1 exShrinkReq).1) ∧
    (0 ≤ exShrinkReq.capacity → canceledMealsHaveNoActive exStateTwoOrders →
      activeQtySum exStateTwoOrders exStateTwoOrders.nextMealId = 0 →
      capacityInvariant (createMeal exStateTwoOrders exShrinkReq).1) ∧
    ((findUser exStateTwoOrders 3).isSome →
      findMeal exStateTwoOrders 1 = some { exMealPub with capacity := 2 } →
      ({ exMealPub with capacity := 2 } : Meal).status = .published →
      hasActiveOrder exStateTwoOrders 3 1 = false → (1 : Int) = 1 →
      activeQtySum exStateTwoOrders 1 + 1 > ({ exMealPub with capacity := 2 } : Meal).capacity →
      submitOrder exStateTwoOrders 3 1 1 [] = (exStateTwoOrders, .error .capacityExceeded)) :=
  capacity_invariant_per_operation exStateTwoOrders 3 1 0 1 100 [] exShrinkReq
    { exMealPub with capacity := 2 }
    (by unfold capacityInvariant; decide)
    (by unfold mealIdsNodup; decide)
    (by unfold qtysNonneg; decide)

end GangHaoFan
